import Mathlib

/-!
# UART timestamped-data library (`UartCLibrary/uart.c`, `uart.h`)

A shallow embedding of the transmit ring buffer, the packet encoder, the
command gate and the three data-path calls, followed by theorems about them.

Conventions of the embedding.

* The static variables of `uart.c` are the fields of `UartState`.
* `UART_TX_BUFFER_SIZE` (128 in `uart.h`) is the parameter `N`.
* The peripheral is an environment `Env`: what each successive read of the
  RXNE, TXE and TC flags and of the timestamp variable returns.  `Link` counts
  the reads made so far and logs the bytes written to the transmit register.
* `uint16_t`, `uint32_t`, `uint8_t` and `size_t` values are naturals, reduced
  modulo `2^16`, `2^32`, `2^8`, `2^32` where the C code stores or converts.
* The two loops without a bound (`while (!TC)` and the drain loop of
  `UART_FlushBuffer`) take fuel; `none` means that the call has not returned
  within the fuel.
-/

namespace Uart

/-! ## Data model -/

/-- Payload record of `uart.c`: `uint32_t data; uint8_t timestamp;`. -/
structure UART_TimestampedData where
  data : Nat
  timestamp : Nat
deriving DecidableEq, Repr

/-- Enumeration `UART_PayloadSize` of `uart.h` (values 1, 2 and 4). -/
inductive UART_PayloadSize where
  | UART_PAYLOAD_8
  | UART_PAYLOAD_16
  | UART_PAYLOAD_32
deriving DecidableEq, Repr

/-- Enumerator values: the number of data bytes of a packet. -/
def UART_PayloadSize.toNat : UART_PayloadSize → Nat
  | .UART_PAYLOAD_8 => 1
  | .UART_PAYLOAD_16 => 2
  | .UART_PAYLOAD_32 => 4

/-- Static variables of `uart.c`.  `selectedUART` and `timeValue` are pointers:
`none` is `NULL`, `some a` a non-null address. -/
structure UartState where
  uartTxBuffer : Nat → UART_TimestampedData
  uartTxHead : Nat
  uartTxTail : Nat
  selectedUART : Option Nat
  timeValue : Option Nat
  uartPayloadSize : UART_PayloadSize
  uartTransmitEnabled : Nat

/-- Environment of the driver: `rxne k` is what the `k`-th read of the RXNE flag
finds (`none`: flag clear, `some b`: flag set and `b` in the receive register),
`txe k` and `tc k` are the `k`-th reads of the TXE and TC flags, `time k` is the
`k`-th read of `*timeValue`. -/
structure Env where
  rxne : Nat → Option Nat
  txe : Nat → Bool
  tc : Nat → Bool
  time : Nat → Nat

/-- Interaction with the peripheral so far: number of reads of each flag and of
the timestamp variable, and the bytes passed to `LL_USART_TransmitData8`, oldest
first. -/
structure Link where
  rxPolls : Nat
  txePolls : Nat
  tcPolls : Nat
  timeReads : Nat
  sent : List Nat
deriving DecidableEq, Repr

/-- Driver state together with the interaction record. -/
structure Sys where
  st : UartState
  hw : Link

/-! ## Circular buffer macros -/

/-- Macro `BUFFER_NEXT(index)`: `((index) + 1) % UART_TX_BUFFER_SIZE`. -/
def BUFFER_NEXT (N index : Nat) : Nat := (index + 1) % N

/-- Macro `BUFFER_IS_FULL()`: `BUFFER_NEXT(uartTxHead) == uartTxTail`. -/
def BUFFER_IS_FULL (N : Nat) (s : UartState) : Bool :=
  BUFFER_NEXT N s.uartTxHead == s.uartTxTail

/-- Macro `BUFFER_IS_EMPTY()`: `uartTxHead == uartTxTail`. -/
def BUFFER_IS_EMPTY (s : UartState) : Bool :=
  s.uartTxHead == s.uartTxTail

/-! ## Command gate -/

/-- Function `UART_ProcessCommand`: one read of RXNE; when a byte waits it is
received (as a `uint8_t`) and dispatched on 0x53 (start), 0x52 (reset) and the
default case.  Returns 1 when a byte was received, 0 otherwise. -/
def UART_ProcessCommand (env : Env) (m : Sys) : Sys × Nat :=
  let hw1 : Link := { m.hw with rxPolls := m.hw.rxPolls + 1 }
  match env.rxne m.hw.rxPolls with
  | some b =>
    let commandByte := b % 256
    if commandByte = 0x53 then
      ({ st := { m.st with uartTransmitEnabled := 1 }, hw := hw1 }, 1)
    else if commandByte = 0x52 then
      ({ st := { m.st with uartTransmitEnabled := 0, uartTxHead := 0, uartTxTail := 0 },
         hw := hw1 }, 1)
    else
      ({ st := m.st, hw := hw1 }, 1)
  | none => ({ st := m.st, hw := hw1 }, 0)

/-! ## Initialisation -/

/-- Function `UART_Init`: records the UART, the timestamp holder and the payload
size and zeroes both indices.  The peripheral configuration calls are outside
the model. -/
def UART_Init (USARTx timestampHolder : Nat) (payloadSize : UART_PayloadSize) (m : Sys) : Sys :=
  { st := { m.st with
              selectedUART := some USARTx
              timeValue := some timestampHolder
              uartPayloadSize := payloadSize
              uartTxHead := 0
              uartTxTail := 0 },
    hw := m.hw }

/-! ## Store -/

/-- Free-slot computation of `UART_StoreData`: `int` arithmetic on the promoted
indices, converted to `size_t` (32 bits). -/
def freeSlots (N head tail : Nat) : Nat :=
  if head ≥ tail then
    ((((N : Int) - ((head : Int) - (tail : Int)) - 1)) % 4294967296).toNat
  else
    ((((tail : Int) - (head : Int) - 1)) % 4294967296).toNat

/-- Masking switch of `UART_StoreData` on the payload size. -/
def maskData (w : UART_PayloadSize) (dataValue : Nat) : Nat :=
  match w with
  | .UART_PAYLOAD_8 => dataValue &&& 0xFF
  | .UART_PAYLOAD_16 => dataValue &&& 0xFFFF
  | .UART_PAYLOAD_32 => dataValue

/-- Record built by one iteration of the store loop from the value read through
the pointer (a `uint32_t`) and the timestamp variable read at that moment. -/
def makeRecord (w : UART_PayloadSize) (v t : Nat) : UART_TimestampedData :=
  { data := maskData w (v % 4294967296)
    timestamp := ((t % 4294967296) &&& 0xFF) % 256 }

/-- The `for` loop of `UART_StoreData`: one record per value, written at
`uartTxHead`, which then moves to `BUFFER_NEXT(uartTxHead)` (stored in a
`uint16_t`). -/
def storeLoop (N : Nat) (env : Env) : List Nat → Sys → Sys
  | [], m => m
  | v :: rest, m =>
    let dataToAdd := makeRecord m.st.uartPayloadSize v (env.time m.hw.timeReads)
    storeLoop N env rest
      { st := { m.st with
                  uartTxBuffer := Function.update m.st.uartTxBuffer m.st.uartTxHead dataToAdd
                  uartTxHead := BUFFER_NEXT N m.st.uartTxHead % 65536 },
        hw := { m.hw with timeReads := m.hw.timeReads + 1 } }

/-- Function `UART_StoreData`; `dataArray` lists the values behind the pointers
and `n` is its length. -/
def UART_StoreData (N : Nat) (env : Env) (m : Sys) (dataArray : List Nat) : Sys × Nat :=
  if m.st.selectedUART = none then (m, 0)
  else
    let m1 := (UART_ProcessCommand env m).1
    if m1.st.uartTransmitEnabled = 0 then (m1, 0)
    else if freeSlots N m1.st.uartTxHead m1.st.uartTxTail < dataArray.length then (m1, 0)
    else (storeLoop N env dataArray m1, 1)

/-! ## Flush -/

/-- Packing switch of `UART_FlushOne` and `UART_FlushBuffer`, with the timestamp
byte appended: the contents of `bytesToTransmit[0 .. byteCount-1]`. -/
def packBytes (w : UART_PayloadSize) (packet : UART_TimestampedData) : List Nat :=
  match w with
  | .UART_PAYLOAD_8 =>
    [packet.data &&& 0xFF, packet.timestamp &&& 0xFF]
  | .UART_PAYLOAD_16 =>
    [(packet.data >>> 8) &&& 0xFF, packet.data &&& 0xFF, packet.timestamp &&& 0xFF]
  | .UART_PAYLOAD_32 =>
    [(packet.data >>> 24) &&& 0xFF, (packet.data >>> 16) &&& 0xFF,
     (packet.data >>> 8) &&& 0xFF, packet.data &&& 0xFF, packet.timestamp &&& 0xFF]

/-- The wait `while(!TXE) { if (timeout-- <= 0) return 0; }` entered with the
given value of `timeout`, reading the flag from read number `k` on.  Returns
whether the flag was seen set and the number of the next read. -/
def waitTXE (txe : Nat → Bool) : Nat → Nat → Bool × Nat
  | timeout, k =>
    if txe k then (true, k + 1)
    else
      match timeout with
      | 0 => (false, k + 1)
      | t + 1 => waitTXE txe t (k + 1)

/-- The transmit loop over the bytes of one packet: for each byte wait for TXE
with `timeout = 5000`, then write the byte; `false` when a wait ran out. -/
def transmitBytes (env : Env) : List Nat → Sys → Sys × Bool
  | [], m => (m, true)
  | b :: rest, m =>
    let r := waitTXE env.txe 5000 m.hw.txePolls
    if r.1 then
      transmitBytes env rest
        { st := m.st, hw := { m.hw with txePolls := r.2, sent := m.hw.sent ++ [b] } }
    else
      ({ st := m.st, hw := { m.hw with txePolls := r.2 } }, false)

/-- The wait `while (!TC) { }`, reading the flag from read number `k` on:
the number of the next read once the flag was seen set, `none` when the fuel
ran out first. -/
def waitTC (tc : Nat → Bool) : Nat → Nat → Option Nat
  | 0, _ => none
  | fuel + 1, k => if tc k then some (k + 1) else waitTC tc fuel (k + 1)

/-- Function `UART_FlushOne`. -/
def UART_FlushOne (N : Nat) (env : Env) (fuel : Nat) (m : Sys) : Option (Sys × Nat) :=
  if BUFFER_IS_EMPTY m.st || m.st.selectedUART == none then some (m, 0)
  else
    let m1 := (UART_ProcessCommand env m).1
    if m1.st.uartTransmitEnabled = 0 then some (m1, 0)
    else
      let packet := m1.st.uartTxBuffer m1.st.uartTxTail
      let r := transmitBytes env (packBytes m1.st.uartPayloadSize packet) m1
      if r.2 then
        match waitTC env.tc fuel r.1.hw.tcPolls with
        | none => none
        | some k =>
          some ({ st := { r.1.st with uartTxTail := BUFFER_NEXT N r.1.st.uartTxTail % 65536 },
                  hw := { r.1.hw with tcPolls := k } }, 1)
      else some (r.1, 0)

/-- The loop `while(!BUFFER_IS_EMPTY())` of `UART_FlushBuffer`.  The flag of the
result is `true` when the loop ended because the buffer was empty and `false`
when the body returned 0. -/
def flushLoop (N : Nat) (env : Env) : Nat → Sys → Option (Sys × Bool)
  | 0, _ => none
  | fuel + 1, m =>
    if BUFFER_IS_EMPTY m.st then some (m, true)
    else
      let m1 := (UART_ProcessCommand env m).1
      if m1.st.uartTransmitEnabled = 0 then some (m1, false)
      else
        let packet := m1.st.uartTxBuffer m1.st.uartTxTail
        let r := transmitBytes env (packBytes m1.st.uartPayloadSize packet) m1
        if r.2 then
          flushLoop N env fuel
            { st := { r.1.st with uartTxTail := BUFFER_NEXT N r.1.st.uartTxTail % 65536 },
              hw := r.1.hw }
        else some (r.1, false)

/-- Function `UART_FlushBuffer`. -/
def UART_FlushBuffer (N : Nat) (env : Env) (fuel : Nat) (m : Sys) : Option (Sys × Nat) :=
  if BUFFER_IS_EMPTY m.st || m.st.selectedUART == none then some (m, 0)
  else
    match flushLoop N env fuel m with
    | none => none
    | some (m1, false) => some (m1, 0)
    | some (m1, true) =>
      match waitTC env.tc fuel m1.hw.tcPolls with
      | none => none
      | some k => some ({ st := m1.st, hw := { m1.hw with tcPolls := k } }, 1)

/-! ## Moments at which the record at tail is read -/

/-- The states in which `UART_FlushOne` executes
`packet = uartTxBuffer[uartTxTail]`: none when the call returns at the first
guard or at the gate check, else the state left by the poll. -/
def flushOneReads (env : Env) (m : Sys) : List Sys :=
  if BUFFER_IS_EMPTY m.st || m.st.selectedUART == none then []
  else
    let m1 := (UART_ProcessCommand env m).1
    if m1.st.uartTransmitEnabled = 0 then []
    else [m1]

/-- The states in which the loop of `UART_FlushBuffer` executes
`packet = uartTxBuffer[uartTxTail]`, in order: the same control flow as
`flushLoop`, recording the state left by the poll of every iteration that gets
past the gate check. -/
def flushLoopReads (N : Nat) (env : Env) : Nat → Sys → List Sys
  | 0, _ => []
  | fuel + 1, m =>
    if BUFFER_IS_EMPTY m.st then []
    else
      let m1 := (UART_ProcessCommand env m).1
      if m1.st.uartTransmitEnabled = 0 then []
      else
        let packet := m1.st.uartTxBuffer m1.st.uartTxTail
        let r := transmitBytes env (packBytes m1.st.uartPayloadSize packet) m1
        m1 :: (if r.2 then
                flushLoopReads N env fuel
                  { st := { r.1.st with uartTxTail := BUFFER_NEXT N r.1.st.uartTxTail % 65536 },
                    hw := r.1.hw }
              else [])

/-- The states in which `UART_FlushBuffer` reads the record at tail. -/
def flushBufferReads (N : Nat) (env : Env) (fuel : Nat) (m : Sys) : List Sys :=
  if BUFFER_IS_EMPTY m.st || m.st.selectedUART == none then []
  else flushLoopReads N env fuel m

/-! ## Sequences of data-path calls -/

/-- A call of one of the three data-path functions. -/
inductive DataCall where
  | store (dataArray : List Nat)
  | flushOne
  | flushBuffer

/-- Runs one data-path call: the state after it and its return value. -/
def DataCall.run (N : Nat) (env : Env) (fuel : Nat) : DataCall → Sys → Option (Sys × Nat)
  | .store dataArray, m => some (UART_StoreData N env m dataArray)
  | .flushOne, m => UART_FlushOne N env fuel m
  | .flushBuffer, m => UART_FlushBuffer N env fuel m

/-- Runs the calls one after the other: the final state and the return values in
call order. -/
def runCalls (N : Nat) (env : Env) (fuel : Nat) : List DataCall → Sys → Option (Sys × List Nat)
  | [], m => some (m, [])
  | c :: rest, m =>
    match c.run N env fuel m with
    | none => none
    | some (m1, r) =>
      match runCalls N env fuel rest m1 with
      | none => none
      | some (m2, rs) => some (m2, r :: rs)

/-! ## Sequences of API calls -/

/-- A call of one of the four API functions. -/
inductive ApiCall where
  | init (USARTx timestampHolder : Nat) (payloadSize : UART_PayloadSize)
  | data (c : DataCall)

/-- Runs one API call: the state after it. -/
def ApiCall.run (N : Nat) (env : Env) (fuel : Nat) : ApiCall → Sys → Option Sys
  | .init USARTx timestampHolder payloadSize, m =>
    some (UART_Init USARTx timestampHolder payloadSize m)
  | .data c, m =>
    match c.run N env fuel m with
    | none => none
    | some (m1, _) => some m1

/-- Runs the API calls one after the other: the final state. -/
def runApi (N : Nat) (env : Env) (fuel : Nat) : List ApiCall → Sys → Option Sys
  | [], m => some m
  | c :: rest, m =>
    match c.run N env fuel m with
    | none => none
    | some m1 => runApi N env fuel rest m1

/-! ## Observations used in the statements -/

/-- Number of occupied slots, `(head - tail) mod N`. -/
def usedSlots (N head tail : Nat) : Nat :=
  (((head : Int) - (tail : Int)) % (N : Int)).toNat

/-- The `count` slots from index `tail` on, with wraparound. -/
def queueFrom (N : Nat) (buf : Nat → UART_TimestampedData) (tail count : Nat) :
    List UART_TimestampedData :=
  (List.range count).map (fun i => buf ((tail + i) % N))

/-- The queue of a state, read from tail to head with wraparound. -/
def contents (N : Nat) (s : UartState) : List UART_TimestampedData :=
  queueFrom N s.uartTxBuffer s.uartTxTail (usedSlots N s.uartTxHead s.uartTxTail)

/-- The state right after program start and `UART_Init`: zeroed buffer, both
indices 0, gate off, nothing exchanged with the peripheral yet. -/
def initialSys (USARTx timestampHolder : Nat) (payloadSize : UART_PayloadSize) : Sys :=
  { st := { uartTxBuffer := fun _ => { data := 0, timestamp := 0 }
            uartTxHead := 0
            uartTxTail := 0
            selectedUART := some USARTx
            timeValue := some timestampHolder
            uartPayloadSize := payloadSize
            uartTransmitEnabled := 0 },
    hw := { rxPolls := 0, txePolls := 0, tcPolls := 0, timeReads := 0, sent := [] } }

/-- The records a successful store appends for the given values: the `i`-th
value reduced modulo `2^(8w)` with the low byte of the timestamp read number
`k + i`. -/
def stampedRecords (w : UART_PayloadSize) (time : Nat → Nat) :
    Nat → List Nat → List UART_TimestampedData
  | _, [] => []
  | k, v :: rest =>
    { data := v % 2 ^ (8 * w.toNat), timestamp := time k % 256 }
      :: stampedRecords w time (k + 1) rest

/-- The low `w` bytes of `value`, most significant first: byte `i` is
`value / 256^(w-1-i) mod 256`. -/
def dataBytesBE (w value : Nat) : List Nat :=
  (List.range w).map (fun i => value / 256 ^ (w - 1 - i) % 256)

/-- The packet of a record as the wire format describes it: `w` data bytes,
most significant first, then the timestamp byte. -/
def packetOf (w : UART_PayloadSize) (r : UART_TimestampedData) : List Nat :=
  dataBytesBE w.toNat r.data ++ [r.timestamp % 256]

/-- Modelled from the spec: the receiver-side decoder, which the C library does
not contain.  The first `w` bytes are read as a big-endian integer and the byte
after them as the timestamp. -/
def decodePacket (w : UART_PayloadSize) (bytes : List Nat) : UART_TimestampedData :=
  { data := (bytes.take w.toNat).foldl (fun acc b => acc * 256 + b) 0
    timestamp := (bytes.drop w.toNat).headD 0 }

/-- No reset byte is received at RXNE read number `k`. -/
def noResetAt (env : Env) (k : Nat) : Prop :=
  ∀ b, env.rxne k = some b → b % 256 ≠ 0x52

/-! ## Concrete inputs -/

/-- An environment in which the start byte 0x53 waits at every RXNE read, TXE
and TC are always set and the timestamp variable is fixed at 0x7A. -/
def startEnv : Env :=
  { rxne := fun _ => some 0x53, txe := fun _ => true, tc := fun _ => true, time := fun _ => 0x7A }

/-- An environment in which the reset byte 0x52 waits at every RXNE read, TXE
and TC are always set and the timestamp variable is fixed at 0x7A. -/
def resetEnv : Env :=
  { rxne := fun _ => some 0x52, txe := fun _ => true, tc := fun _ => true, time := fun _ => 0x7A }


/-- An environment with no inbound byte, TXE and TC always set and the
timestamp variable fixed at 0x7A. -/
def quietEnv : Env :=
  { rxne := fun _ => none, txe := fun _ => true, tc := fun _ => true, time := fun _ => 0x7A }

/-- The initialised state with the gate already enabled by an earlier start
command. -/
def startedSys (payloadSize : UART_PayloadSize) : Sys :=
  { st := { (initialSys 1 1 payloadSize).st with uartTransmitEnabled := 1 },
    hw := (initialSys 1 1 payloadSize).hw }

/-- Capacity 4, width 1: the state after `Store([1,2,3])` on `startedSys`. -/
def filledSys : Sys :=
  (UART_StoreData 4 quietEnv (startedSys .UART_PAYLOAD_8) [1, 2, 3]).1

/-- The state at program start, before any `UART_Init`: the statics are
zero-initialised, so the buffer is zeroed, both indices are 0, both pointers are
`NULL` and the gate is off.  The zero payload size is no enumerator; both
switches send it to their default case, which is the case of
`UART_PAYLOAD_32`. -/
def bootSys : Sys :=
  { st := { uartTxBuffer := fun _ => { data := 0, timestamp := 0 }
            uartTxHead := 0
            uartTxTail := 0
            selectedUART := none
            timeValue := none
            uartPayloadSize := .UART_PAYLOAD_32
            uartTransmitEnabled := 0 },
    hw := { rxPolls := 0, txePolls := 0, tcPolls := 0, timeReads := 0, sent := [] } }

/-- Capacity 4, width 1: the state after `Store([0x11])` on `startedSys`. -/
def oneSys : Sys :=
  (UART_StoreData 4 quietEnv (startedSys .UART_PAYLOAD_8) [0x11]).1

/-- An environment with no inbound byte in which TXE is set at its first read
only and clear at every later read. -/
def stallEnv : Env :=
  { rxne := fun _ => none, txe := fun k => k == 0, tc := fun _ => true, time := fun _ => 0x7A }

/-- An environment with no inbound byte in which TXE is clear at its first 5000
reads and set from the next read on. -/
def slowEnv : Env :=
  { rxne := fun _ => none, txe := fun k => decide (5000 ≤ k), tc := fun _ => true,
    time := fun _ => 0x7A }

/-- An environment in which the start byte waits at the first RXNE read and the
reset byte at every later one; TXE and TC are always set. -/
def startThenResetEnv : Env :=
  { rxne := fun k => if k = 0 then some 0x53 else some 0x52, txe := fun _ => true,
    tc := fun _ => true, time := fun _ => 0x7A }

/-! ## Facts about the command poll -/

/-- Outcome of the poll when no byte waits. -/
theorem poll_none (env : Env) (m : Sys) (h : env.rxne m.hw.rxPolls = none) :
    UART_ProcessCommand env m
      = ({ st := m.st, hw := { m.hw with rxPolls := m.hw.rxPolls + 1 } }, 0) := by
  simp [UART_ProcessCommand, h]

/-- Outcome of the poll on the start byte. -/
theorem poll_start (env : Env) (m : Sys) (b : Nat) (h : env.rxne m.hw.rxPolls = some b)
    (hb : b % 256 = 0x53) :
    UART_ProcessCommand env m
      = ({ st := { m.st with uartTransmitEnabled := 1 },
           hw := { m.hw with rxPolls := m.hw.rxPolls + 1 } }, 1) := by
  simp [UART_ProcessCommand, h, hb]

/-- Outcome of the poll on the reset byte. -/
theorem poll_reset (env : Env) (m : Sys) (b : Nat) (h : env.rxne m.hw.rxPolls = some b)
    (hb : b % 256 = 0x52) :
    UART_ProcessCommand env m
      = ({ st := { m.st with uartTransmitEnabled := 0, uartTxHead := 0, uartTxTail := 0 },
           hw := { m.hw with rxPolls := m.hw.rxPolls + 1 } }, 1) := by
  simp [UART_ProcessCommand, h, hb]

/-- Outcome of the poll on any other byte. -/
theorem poll_other (env : Env) (m : Sys) (b : Nat) (h : env.rxne m.hw.rxPolls = some b)
    (hS : b % 256 ≠ 0x53) (hR : b % 256 ≠ 0x52) :
    UART_ProcessCommand env m
      = ({ st := m.st, hw := { m.hw with rxPolls := m.hw.rxPolls + 1 } }, 1) := by
  simp [UART_ProcessCommand, h, hS, hR]

/-- The poll touches the interaction record only through the RXNE read count. -/
theorem poll_hw (env : Env) (m : Sys) :
    (UART_ProcessCommand env m).1.hw = { m.hw with rxPolls := m.hw.rxPolls + 1 } := by
  unfold UART_ProcessCommand
  cases env.rxne m.hw.rxPolls with
  | none => rfl
  | some b => simp only []; split_ifs <;> rfl

/-- The poll never changes the slots, the pointers or the payload size. -/
theorem poll_frame (env : Env) (m : Sys) :
    (UART_ProcessCommand env m).1.st.uartTxBuffer = m.st.uartTxBuffer
    ∧ (UART_ProcessCommand env m).1.st.selectedUART = m.st.selectedUART
    ∧ (UART_ProcessCommand env m).1.st.timeValue = m.st.timeValue
    ∧ (UART_ProcessCommand env m).1.st.uartPayloadSize = m.st.uartPayloadSize := by
  unfold UART_ProcessCommand
  cases env.rxne m.hw.rxPolls with
  | none => simp
  | some b => simp only []; split_ifs <;> simp

/-- A poll that leaves the gate enabled has consumed no reset: both indices are
as before. -/
theorem poll_gate_on (env : Env) (m : Sys)
    (h : (UART_ProcessCommand env m).1.st.uartTransmitEnabled ≠ 0) :
    (UART_ProcessCommand env m).1.st.uartTxHead = m.st.uartTxHead
    ∧ (UART_ProcessCommand env m).1.st.uartTxTail = m.st.uartTxTail := by
  unfold UART_ProcessCommand at h ⊢
  cases hrx : env.rxne m.hw.rxPolls with
  | none => simp
  | some b =>
    simp only [hrx] at h ⊢
    split_ifs at h ⊢ <;> simp_all

/-! ## Index arithmetic -/

/-- Low-byte mask as a remainder. -/
theorem and_255 (x : Nat) : x &&& 0xFF = x % 256 :=
  Nat.and_pow_two_sub_one_eq_mod x 8

/-- Low-halfword mask as a remainder. -/
theorem and_65535 (x : Nat) : x &&& 0xFFFF = x % 65536 :=
  Nat.and_pow_two_sub_one_eq_mod x 16

/-- The advanced index fits the `uint16_t` it is stored in and is in range. -/
theorem next_index (N i : Nat) (hN : 0 < N) (hN16 : N ≤ 65536) :
    BUFFER_NEXT N i % 65536 = (i + 1) % N ∧ (i + 1) % N < N := by
  have h : (i + 1) % N < N := Nat.mod_lt _ hN
  exact ⟨Nat.mod_eq_of_lt (by unfold BUFFER_NEXT; omega), h⟩

/-- Occupied slots for indices in range, without the modulus. -/
theorem usedSlots_eq (N head tail : Nat) (hh : head < N) (ht : tail < N) :
    usedSlots N head tail = if tail ≤ head then head - tail else head + N - tail := by
  unfold usedSlots
  split_ifs with h
  · rw [Int.emod_eq_of_lt (by omega) (by omega)]; omega
  · rw [← Int.add_emod_self, Int.emod_eq_of_lt (by omega) (by omega)]; omega

/-- Free slots as computed by the store, for indices in range. -/
theorem freeSlots_eq (N head tail : Nat) (hh : head < N) (ht : tail < N) (hN16 : N ≤ 65536) :
    freeSlots N head tail = N - 1 - usedSlots N head tail := by
  rw [usedSlots_eq N head tail hh ht]
  unfold freeSlots
  split_ifs <;> omega

/-- The slot at distance `usedSlots` from tail is the head slot. -/
theorem tail_add_used (N head tail : Nat) (hh : head < N) (ht : tail < N) :
    (tail + usedSlots N head tail) % N = head := by
  rw [usedSlots_eq N head tail hh ht]
  split_ifs with h
  · rw [show tail + (head - tail) = head by omega]; exact Nat.mod_eq_of_lt hh
  · rw [show tail + (head + N - tail) = head + N by omega, Nat.add_mod_right]
    exact Nat.mod_eq_of_lt hh

/-- Advancing head over a free slot adds one occupied slot. -/
theorem usedSlots_push (N head tail : Nat) (hh : head < N) (ht : tail < N)
    (hfree : usedSlots N head tail < N - 1) :
    usedSlots N ((head + 1) % N) tail = usedSlots N head tail + 1 := by
  have hN : 0 < N := by omega
  rw [usedSlots_eq N head tail hh ht] at hfree ⊢
  rw [usedSlots_eq N _ tail (Nat.mod_lt _ hN) ht]
  by_cases hw : head + 1 = N
  · rw [hw, Nat.mod_self]; split_ifs at hfree ⊢ <;> omega
  · rw [Nat.mod_eq_of_lt (by omega)]; split_ifs at hfree ⊢ <;> omega

/-- Advancing tail over an occupied slot removes one occupied slot. -/
theorem usedSlots_pop (N head tail : Nat) (hh : head < N) (ht : tail < N)
    (hne : head ≠ tail) :
    usedSlots N head tail = usedSlots N head ((tail + 1) % N) + 1 := by
  have hN : 0 < N := by omega
  rw [usedSlots_eq N head tail hh ht, usedSlots_eq N head _ hh (Nat.mod_lt _ hN)]
  by_cases hw : tail + 1 = N
  · rw [hw, Nat.mod_self]; split_ifs <;> omega
  · rw [Nat.mod_eq_of_lt (by omega)]; split_ifs <;> omega

/-- Slots at distance less than `N` from tail are distinct from the slot at a
larger distance below `N`. -/
theorem slot_ne (N tail i c : Nat) (hi : i < c) (hc : c < N) :
    (tail + i) % N ≠ (tail + c) % N := by
  intro h
  have h1 : (tail + c) % N = ((tail + i) % N + (c - i) % N) % N := by
    rw [← Nat.add_mod]; congr 1; omega
  rw [h, Nat.mod_eq_of_lt (show c - i < N by omega)] at h1
  have hlt : (tail + c) % N < N := Nat.mod_lt _ (by omega)
  by_cases hov : (tail + c) % N + (c - i) < N
  · rw [Nat.mod_eq_of_lt hov] at h1; omega
  · have h2 : ((tail + c) % N + (c - i)) % N = (tail + c) % N + (c - i) - N := by
      rw [Nat.mod_eq_sub_mod (by omega), Nat.mod_eq_of_lt (by omega)]
    omega

/-- Writing the slot just past the queue appends the record to the queue. -/
theorem queueFrom_push (N : Nat) (buf : Nat → UART_TimestampedData) (tail c : Nat)
    (r : UART_TimestampedData) (hc : c < N) :
    queueFrom N (Function.update buf ((tail + c) % N) r) tail (c + 1)
      = queueFrom N buf tail c ++ [r] := by
  unfold queueFrom
  rw [List.range_succ, List.map_append]
  congr 1
  · apply List.map_congr_left
    intro i hi
    rw [List.mem_range] at hi
    exact Function.update_noteq (slot_ne N tail i c hi hc) _ _
  · simp

/-- The queue is its front slot followed by the queue from the next index. -/
theorem queueFrom_pop (N : Nat) (buf : Nat → UART_TimestampedData) (tail c : Nat)
    (ht : tail < N) :
    queueFrom N buf tail (c + 1) = buf tail :: queueFrom N buf ((tail + 1) % N) c := by
  unfold queueFrom
  rw [List.range_succ_eq_map, List.map_cons, List.map_map]
  congr 1
  · simp [Nat.mod_eq_of_lt ht]
  · apply List.map_congr_left
    intro i _
    simp only [Function.comp]
    rw [Nat.add_mod ((tail + 1) % N), Nat.mod_mod, ← Nat.add_mod]
    rw [show tail + 1 + i = tail + i.succ by omega]

/-- For indices in range the buffer is full exactly when `N - 1` slots are
occupied. -/
theorem full_iff_used (N head tail : Nat) (hh : head < N) (ht : tail < N) :
    (head + 1) % N = tail ↔ usedSlots N head tail = N - 1 := by
  rw [usedSlots_eq N head tail hh ht]
  by_cases hw : head + 1 = N
  · rw [hw, Nat.mod_self]; split_ifs <;> omega
  · rw [Nat.mod_eq_of_lt (by omega)]; split_ifs <;> omega

/-! ## The store loop -/

/-- One stamped record per value. -/
theorem stampedRecords_length (w : UART_PayloadSize) (time : Nat → Nat) (k : Nat)
    (vals : List Nat) : (stampedRecords w time k vals).length = vals.length := by
  induction vals generalizing k with
  | nil => rfl
  | cons v rest ih => simp only [stampedRecords, List.length_cons]; rw [ih]


/-- The record built by the store loop, with remainders for the masks. -/
theorem makeRecord_eq (w : UART_PayloadSize) (v t : Nat) :
    makeRecord w v t = { data := v % 2 ^ (8 * w.toNat), timestamp := t % 256 } := by
  cases w <;>
    simp only [makeRecord, maskData, and_255, and_65535, UART_PayloadSize.toNat,
      UART_TimestampedData.mk.injEq] <;>
    constructor <;> norm_num

/-- What the store loop leaves alone. -/
theorem storeLoop_frame (N : Nat) (env : Env) (vals : List Nat) (m : Sys) :
    (storeLoop N env vals m).st.uartTxTail = m.st.uartTxTail
    ∧ (storeLoop N env vals m).st.uartTransmitEnabled = m.st.uartTransmitEnabled
    ∧ (storeLoop N env vals m).st.uartPayloadSize = m.st.uartPayloadSize
    ∧ (storeLoop N env vals m).st.selectedUART = m.st.selectedUART
    ∧ (storeLoop N env vals m).st.timeValue = m.st.timeValue
    ∧ (storeLoop N env vals m).hw
        = { m.hw with timeReads := m.hw.timeReads + vals.length } := by
  induction vals generalizing m with
  | nil => simp [storeLoop]
  | cons v rest ih =>
    simp only [storeLoop]
    obtain ⟨h1, h2, h3, h4, h5, h6⟩ := ih
      { st := { m.st with
                  uartTxBuffer := Function.update m.st.uartTxBuffer m.st.uartTxHead
                    (makeRecord m.st.uartPayloadSize v (env.time m.hw.timeReads))
                  uartTxHead := BUFFER_NEXT N m.st.uartTxHead % 65536 },
        hw := { m.hw with timeReads := m.hw.timeReads + 1 } }
    refine ⟨h1, h2, h3, h4, h5, ?_⟩
    rw [h6]
    simp [Nat.add_assoc, Nat.add_comm 1]

/-- The store loop on a batch that fits: head stays in range, the occupied-slot
count grows by the batch length and the queue is extended by the stamped
records in batch order. -/
theorem storeLoop_contents (N : Nat) (env : Env) (hN16 : N ≤ 65536) (vals : List Nat) (m : Sys)
    (hh : m.st.uartTxHead < N) (ht : m.st.uartTxTail < N)
    (hfit : usedSlots N m.st.uartTxHead m.st.uartTxTail + vals.length ≤ N - 1) :
    (storeLoop N env vals m).st.uartTxHead < N
    ∧ usedSlots N (storeLoop N env vals m).st.uartTxHead m.st.uartTxTail
        = usedSlots N m.st.uartTxHead m.st.uartTxTail + vals.length
    ∧ contents N (storeLoop N env vals m).st
        = contents N m.st
          ++ stampedRecords m.st.uartPayloadSize env.time m.hw.timeReads vals := by
  induction vals generalizing m with
  | nil => simp [storeLoop, stampedRecords, hh]
  | cons v rest ih =>
    have hN : 0 < N := by omega
    simp only [List.length_cons] at hfit
    obtain ⟨hnext, hlt⟩ := next_index N m.st.uartTxHead hN hN16
    have hused := usedSlots_push N m.st.uartTxHead m.st.uartTxTail hh ht (by omega)
    have hc : usedSlots N m.st.uartTxHead m.st.uartTxTail < N := by omega
    have key : ∀ m1 : Sys, m1.st.uartTxHead = (m.st.uartTxHead + 1) % N →
        m1.st.uartTxTail = m.st.uartTxTail →
        m1.st.uartTxBuffer = Function.update m.st.uartTxBuffer m.st.uartTxHead
          { data := v % 2 ^ (8 * m.st.uartPayloadSize.toNat),
            timestamp := env.time m.hw.timeReads % 256 } →
        m1.st.uartPayloadSize = m.st.uartPayloadSize →
        m1.hw.timeReads = m.hw.timeReads + 1 →
        (storeLoop N env rest m1).st.uartTxHead < N
        ∧ usedSlots N (storeLoop N env rest m1).st.uartTxHead m.st.uartTxTail
            = usedSlots N m.st.uartTxHead m.st.uartTxTail + (rest.length + 1)
        ∧ contents N (storeLoop N env rest m1).st
            = contents N m.st
              ++ stampedRecords m.st.uartPayloadSize env.time m.hw.timeReads (v :: rest) := by
      intro m1 e1 e2 e3 e4 e5
      obtain ⟨i1, i2, i3⟩ := ih m1 (by rw [e1]; exact hlt) (by rw [e2]; exact ht)
        (by rw [e1, e2, hused]; omega)
      refine ⟨i1, ?_, ?_⟩
      · rw [← e2, i2, e1, e2, hused]; omega
      · rw [i3, e4, e5]
        simp only [contents, e1, e2, e3, hused, stampedRecords]
        have hq := queueFrom_push N m.st.uartTxBuffer m.st.uartTxTail
          (usedSlots N m.st.uartTxHead m.st.uartTxTail)
          { data := v % 2 ^ (8 * m.st.uartPayloadSize.toNat),
            timestamp := env.time m.hw.timeReads % 256 } hc
        rw [tail_add_used N _ _ hh ht] at hq
        rw [hq, List.append_assoc]
        rfl
    simp only [storeLoop]
    exact key _ hnext rfl (by rw [makeRecord_eq]) rfl rfl

/-- A store returns 1 exactly when it reaches the loop, and then its result is
the loop run on the state left by the poll. -/
theorem store_returns_one (N : Nat) (env : Env) (m : Sys) (dataArray : List Nat) :
    (UART_StoreData N env m dataArray).2 = 1 ↔
      (m.st.selectedUART ≠ none
       ∧ (UART_ProcessCommand env m).1.st.uartTransmitEnabled ≠ 0
       ∧ dataArray.length ≤ freeSlots N (UART_ProcessCommand env m).1.st.uartTxHead
            (UART_ProcessCommand env m).1.st.uartTxTail
       ∧ UART_StoreData N env m dataArray
            = (storeLoop N env dataArray (UART_ProcessCommand env m).1, 1)) := by
  unfold UART_StoreData
  simp only []
  split_ifs with h1 h2 h3 <;> simp_all

/-! ## Packing and transmitting one packet -/

/-- The packing switch produces the wire-format packet. -/
theorem packBytes_eq (w : UART_PayloadSize) (r : UART_TimestampedData) :
    packBytes w r = packetOf w r := by
  cases w <;>
    simp [packBytes, packetOf, dataBytesBE, UART_PayloadSize.toNat, and_255,
      Nat.shiftRight_eq_div_pow, List.range_succ]

/-- A packet has one byte more than the payload width. -/
theorem packetOf_length (w : UART_PayloadSize) (r : UART_TimestampedData) :
    (packetOf w r).length = w.toNat + 1 := by
  simp [packetOf, dataBytesBE]

/-- The TXE wait ends at once when the flag is set. -/
theorem waitTXE_ready (txe : Nat → Bool) (timeout k : Nat) (h : txe k = true) :
    waitTXE txe timeout k = (true, k + 1) := by
  unfold waitTXE; simp [h]

/-- With TXE always set every byte of a packet is written, after one read of
the flag each. -/
theorem transmitBytes_ready (env : Env) (htxe : ∀ k, env.txe k = true) (bytes : List Nat)
    (m : Sys) :
    transmitBytes env bytes m
      = ({ st := m.st,
           hw := { m.hw with txePolls := m.hw.txePolls + bytes.length,
                             sent := m.hw.sent ++ bytes } }, true) := by
  induction bytes generalizing m with
  | nil => simp [transmitBytes]
  | cons b rest ih =>
    simp only [transmitBytes, waitTXE_ready _ _ _ (htxe _), if_true]
    rw [ih]
    simp [Nat.add_assoc, Nat.add_comm 1]

/-- The TC wait ends at once when the flag is set. -/
theorem waitTC_ready (tc : Nat → Bool) (fuel k : Nat) (hfuel : 0 < fuel) (h : tc k = true) :
    waitTC tc fuel k = some (k + 1) := by
  cases fuel with
  | zero => omega
  | succ f => simp [waitTC, h]

/-- A poll that receives no reset keeps both indices and keeps an enabled gate
enabled. -/
theorem poll_no_reset (env : Env) (m : Sys) (h : noResetAt env m.hw.rxPolls) :
    (UART_ProcessCommand env m).1.st.uartTxHead = m.st.uartTxHead
    ∧ (UART_ProcessCommand env m).1.st.uartTxTail = m.st.uartTxTail
    ∧ (m.st.uartTransmitEnabled ≠ 0 →
        (UART_ProcessCommand env m).1.st.uartTransmitEnabled ≠ 0) := by
  unfold UART_ProcessCommand
  cases hrx : env.rxne m.hw.rxPolls with
  | none => simp
  | some b =>
    have hb := h b hrx
    simp only []
    split_ifs <;> simp_all

/-- A poll that finds no byte changes no static variable. -/
theorem poll_none_st (env : Env) (m : Sys) (h : env.rxne m.hw.rxPolls = none) :
    (UART_ProcessCommand env m).1.st = m.st := by
  rw [poll_none env m h]

/-! ## The drain loop -/

/-- One iteration of the drain loop on a non-empty buffer, when the poll
receives no reset, the gate is enabled and TXE is always set: the packet of the
front record goes out and tail advances. -/
theorem flushLoop_step (N : Nat) (env : Env) (m : Sys) (hN : 0 < N) (hN16 : N ≤ 65536)
    (hne : m.st.uartTxHead ≠ m.st.uartTxTail)
    (hgate : m.st.uartTransmitEnabled ≠ 0)
    (hrx : noResetAt env m.hw.rxPolls)
    (htxe : ∀ k, env.txe k = true) :
    ∃ m2 : Sys, (∀ fuel, flushLoop N env (fuel + 1) m = flushLoop N env fuel m2)
      ∧ m2.st.uartTxHead = m.st.uartTxHead
      ∧ m2.st.uartTxTail = (m.st.uartTxTail + 1) % N
      ∧ m2.st.uartTxBuffer = m.st.uartTxBuffer
      ∧ m2.st.uartPayloadSize = m.st.uartPayloadSize
      ∧ m2.st.selectedUART = m.st.selectedUART
      ∧ m2.st.timeValue = m.st.timeValue
      ∧ m2.st.uartTransmitEnabled ≠ 0
      ∧ (env.rxne m.hw.rxPolls = none → m2.st.uartTransmitEnabled = m.st.uartTransmitEnabled)
      ∧ m2.hw.rxPolls = m.hw.rxPolls + 1
      ∧ m2.hw.tcPolls = m.hw.tcPolls
      ∧ m2.hw.timeReads = m.hw.timeReads
      ∧ m2.hw.sent = m.hw.sent
          ++ packetOf m.st.uartPayloadSize (m.st.uartTxBuffer m.st.uartTxTail) := by
  obtain ⟨e1, e2, e5⟩ := poll_no_reset env m hrx
  have hg := e5 hgate
  obtain ⟨e3, e6, e7, e4⟩ := poll_frame env m
  have ehw := poll_hw env m
  refine ⟨{ st := { (UART_ProcessCommand env m).1.st with
                      uartTxTail := BUFFER_NEXT N (UART_ProcessCommand env m).1.st.uartTxTail
                        % 65536 },
            hw := { (UART_ProcessCommand env m).1.hw with
                      txePolls := (UART_ProcessCommand env m).1.hw.txePolls
                        + (packBytes (UART_ProcessCommand env m).1.st.uartPayloadSize
                            ((UART_ProcessCommand env m).1.st.uartTxBuffer
                              (UART_ProcessCommand env m).1.st.uartTxTail)).length
                      sent := (UART_ProcessCommand env m).1.hw.sent
                        ++ packBytes (UART_ProcessCommand env m).1.st.uartPayloadSize
                            ((UART_ProcessCommand env m).1.st.uartTxBuffer
                              (UART_ProcessCommand env m).1.st.uartTxTail) } },
    ?_, e1, ?_, e3, e4, e6, e7, hg, ?_, ?_, ?_, ?_, ?_⟩
  · intro fuel
    conv_lhs => unfold flushLoop
    simp only [BUFFER_IS_EMPTY, beq_iff_eq, hne, if_false, if_neg hg,
      transmitBytes_ready env htxe, if_true]
  · simp only [e2]; exact (next_index N _ hN hN16).1
  · intro hnone; simp only [poll_none_st env m hnone]
  · simp only [ehw]
  · simp only [ehw]
  · simp only [ehw]
  · simp only [ehw, e2, e3, e4, packBytes_eq]

/-- The first `j` iterations of the drain loop, for `j` at most the number of
queued records, when none of the `j` polls receives a reset, the gate is enabled
and TXE is always set: the packets of the first `j` records go out in queue
order and tail advances by `j`. -/
theorem flushLoop_iterate (N : Nat) (env : Env) (hN : 0 < N) (hN16 : N ≤ 65536)
    (htxe : ∀ k, env.txe k = true) (j : Nat) (m : Sys)
    (hh : m.st.uartTxHead < N) (ht : m.st.uartTxTail < N)
    (hj : j ≤ usedSlots N m.st.uartTxHead m.st.uartTxTail)
    (hgate : m.st.uartTransmitEnabled ≠ 0)
    (hrx : ∀ i, i < j → noResetAt env (m.hw.rxPolls + i)) :
    ∃ mj : Sys, (∀ fuel, flushLoop N env (fuel + j) m = flushLoop N env fuel mj)
      ∧ mj.st.uartTxHead = m.st.uartTxHead
      ∧ mj.st.uartTxTail = (m.st.uartTxTail + j) % N
      ∧ mj.st.uartTxBuffer = m.st.uartTxBuffer
      ∧ mj.st.uartPayloadSize = m.st.uartPayloadSize
      ∧ mj.st.selectedUART = m.st.selectedUART
      ∧ mj.st.timeValue = m.st.timeValue
      ∧ mj.st.uartTransmitEnabled ≠ 0
      ∧ ((∀ i, i < j → env.rxne (m.hw.rxPolls + i) = none) →
          mj.st.uartTransmitEnabled = m.st.uartTransmitEnabled)
      ∧ mj.hw.rxPolls = m.hw.rxPolls + j
      ∧ mj.hw.tcPolls = m.hw.tcPolls
      ∧ mj.hw.timeReads = m.hw.timeReads
      ∧ mj.hw.sent = m.hw.sent
          ++ (queueFrom N m.st.uartTxBuffer m.st.uartTxTail j).flatMap
              (packetOf m.st.uartPayloadSize) := by
  induction j generalizing m with
  | zero =>
    exact ⟨m, fun _ => rfl, rfl, by simp [Nat.mod_eq_of_lt ht], rfl, rfl, rfl, rfl, hgate,
      fun _ => rfl, rfl, rfl, rfl, by simp [queueFrom]⟩
  | succ j ih =>
    have hne : m.st.uartTxHead ≠ m.st.uartTxTail := by
      intro h
      rw [usedSlots_eq N _ _ hh ht, h] at hj
      simp at hj
    obtain ⟨m2, s0, s1, s2, s3, s4, s5, s6, s7, s8, s9, s10, s11, s12⟩ :=
      flushLoop_step N env m hN hN16 hne hgate (by simpa using hrx 0 (by omega)) htxe
    have hpop := usedSlots_pop N _ _ hh ht hne
    obtain ⟨mj, t0, t1, t2, t3, t4, t5, t6, t7, t8, t9, t10, t11, t12⟩ := ih m2
      (by rw [s1]; exact hh) (by rw [s2]; exact Nat.mod_lt _ hN)
      (by rw [s1, s2]; omega) s7
      (by
        intro i hi
        rw [s9, show m.hw.rxPolls + 1 + i = m.hw.rxPolls + (i + 1) by omega]
        exact hrx (i + 1) (by omega))
    refine ⟨mj, ?_, t1.trans s1, ?_, t3.trans s3, t4.trans s4, t5.trans s5, t6.trans s6, t7,
      ?_, ?_, t10.trans s10, t11.trans s11, ?_⟩
    · intro fuel
      rw [show fuel + (j + 1) = (fuel + j) + 1 by omega, s0, t0]
    · rw [t2, s2, Nat.add_mod ((m.st.uartTxTail + 1) % N), Nat.mod_mod, ← Nat.add_mod]
      rw [show m.st.uartTxTail + 1 + j = m.st.uartTxTail + (j + 1) by omega]
    · intro hnone
      rw [t8 (by
        intro i hi
        rw [s9, show m.hw.rxPolls + 1 + i = m.hw.rxPolls + (i + 1) by omega]
        exact hnone (i + 1) (by omega))]
      exact s8 (by simpa using hnone 0 (by omega))
    · rw [t9, s9]; omega
    · rw [t12, s12, s2, s3, s4, queueFrom_pop N _ _ _ ht, List.flatMap_cons,
        List.append_assoc]

/-- The drain loop stops with success on an empty buffer. -/
theorem flushLoop_empty (N : Nat) (env : Env) (fuel : Nat) (m : Sys) (hfuel : 0 < fuel)
    (he : m.st.uartTxHead = m.st.uartTxTail) :
    flushLoop N env fuel m = some (m, true) := by
  cases fuel with
  | zero => omega
  | succ f => simp [flushLoop, BUFFER_IS_EMPTY, he]

/-- Total length of the packets of a list of records. -/
theorem packets_length (w : UART_PayloadSize) (l : List UART_TimestampedData) :
    (l.flatMap (packetOf w)).length = l.length * (w.toNat + 1) := by
  induction l with
  | nil => simp
  | cons r rest ih =>
    rw [List.flatMap_cons, List.length_append, ih, packetOf_length, List.length_cons]
    ring

/-- The queue of a state has `usedSlots` records. -/
theorem contents_length (N : Nat) (s : UartState) :
    (contents N s).length = usedSlots N s.uartTxHead s.uartTxTail := by
  simp [contents, queueFrom]

/-- A poll that receives no start byte keeps a disabled gate disabled and an
empty buffer empty. -/
theorem poll_no_start (env : Env) (m : Sys)
    (hrx : ∀ b, env.rxne m.hw.rxPolls = some b → b % 256 ≠ 0x53)
    (hgate : m.st.uartTransmitEnabled = 0) (he : m.st.uartTxHead = m.st.uartTxTail) :
    (UART_ProcessCommand env m).1.st.uartTransmitEnabled = 0
    ∧ (UART_ProcessCommand env m).1.st.uartTxHead = (UART_ProcessCommand env m).1.st.uartTxTail := by
  unfold UART_ProcessCommand
  cases h : env.rxne m.hw.rxPolls with
  | none => simp [hgate, he]
  | some b =>
    have hb := hrx b h
    simp only []
    split_ifs <;> simp_all

/-- With the gate off, an empty buffer and no start byte waiting, a data-path
call returns 0, sends nothing and leaves the gate off and the buffer empty. -/
theorem call_before_start (N : Nat) (env : Env) (fuel : Nat) (c : DataCall) (m : Sys)
    (hrx : ∀ k b, env.rxne k = some b → b % 256 ≠ 0x53)
    (hgate : m.st.uartTransmitEnabled = 0) (he : m.st.uartTxHead = m.st.uartTxTail) :
    ∃ m1 : Sys, c.run N env fuel m = some (m1, 0)
      ∧ m1.st.uartTransmitEnabled = 0
      ∧ m1.st.uartTxHead = m1.st.uartTxTail
      ∧ m1.hw.sent = m.hw.sent := by
  cases c with
  | store dataArray =>
    obtain ⟨g, e⟩ := poll_no_start env m (hrx _) hgate he
    have ehw := poll_hw env m
    simp only [DataCall.run, UART_StoreData]
    split_ifs with h1
    · exact ⟨m, rfl, hgate, he, rfl⟩
    · exact ⟨_, rfl, g, e, by rw [ehw]⟩
  | flushOne =>
    exact ⟨m, by simp [DataCall.run, UART_FlushOne, BUFFER_IS_EMPTY, he], hgate, he, rfl⟩
  | flushBuffer =>
    exact ⟨m, by simp [DataCall.run, UART_FlushBuffer, BUFFER_IS_EMPTY, he], hgate, he, rfl⟩

/-- Transmitting changes no static variable and reads neither RXNE, TC nor the
timestamp variable. -/
theorem transmitBytes_frame (env : Env) (bytes : List Nat) (m : Sys) :
    (transmitBytes env bytes m).1.st = m.st
    ∧ (transmitBytes env bytes m).1.hw.rxPolls = m.hw.rxPolls
    ∧ (transmitBytes env bytes m).1.hw.tcPolls = m.hw.tcPolls
    ∧ (transmitBytes env bytes m).1.hw.timeReads = m.hw.timeReads := by
  induction bytes generalizing m with
  | nil => exact ⟨rfl, rfl, rfl, rfl⟩
  | cons b rest ih =>
    simp only [transmitBytes]
    split_ifs
    · obtain ⟨h1, h2, h3, h4⟩ := ih
        { st := m.st,
          hw := { m.hw with txePolls := (waitTXE env.txe 5000 m.hw.txePolls).2,
                            sent := m.hw.sent ++ [b] } }
      exact ⟨h1, h2, h3, h4⟩
    · exact ⟨rfl, rfl, rfl, rfl⟩

/-- The drain loop never lowers the RXNE read count, and raises it when entered
with a non-empty buffer. -/
theorem flushLoop_polls (N : Nat) (env : Env) (fuel : Nat) (m m1 : Sys) (b : Bool)
    (h : flushLoop N env fuel m = some (m1, b)) :
    m.hw.rxPolls ≤ m1.hw.rxPolls
    ∧ (m.st.uartTxHead ≠ m.st.uartTxTail → m.hw.rxPolls + 1 ≤ m1.hw.rxPolls) := by
  induction fuel generalizing m with
  | zero => simp [flushLoop] at h
  | succ f ih =>
    have ehw := poll_hw env m
    unfold flushLoop at h
    by_cases he : m.st.uartTxHead = m.st.uartTxTail
    · simp only [BUFFER_IS_EMPTY, he, beq_self_eq_true, if_true, Option.some.injEq,
        Prod.mk.injEq] at h
      rw [← h.1]
      exact ⟨Nat.le_refl _, fun hne => absurd he hne⟩
    · simp only [BUFFER_IS_EMPTY, beq_iff_eq, he, if_false] at h
      have hstep : m.hw.rxPolls + 1 ≤ m1.hw.rxPolls := by
        split_ifs at h with hg ht
        · simp only [Option.some.injEq, Prod.mk.injEq] at h
          rw [← h.1, ehw]
        · have hrec := (ih _ h).1
          simp only [(transmitBytes_frame env _ _).2.1, ehw] at hrec
          exact hrec
        · simp only [Option.some.injEq, Prod.mk.injEq] at h
          rw [← h.1, (transmitBytes_frame env _ _).2.1, ehw]
      exact ⟨by omega, fun _ => hstep⟩

/-- The first `j` records of a queue of at least `j` records. -/
theorem queueFrom_take (N : Nat) (buf : Nat → UART_TimestampedData) (tail c j : Nat)
    (hj : j ≤ c) : (queueFrom N buf tail c).take j = queueFrom N buf tail j := by
  unfold queueFrom
  rw [← List.map_take, List.take_range, Nat.min_eq_left hj]

/-- One iteration of the drain loop on a non-empty buffer when the poll receives
the reset byte: the loop returns 0 in the state left by the poll. -/
theorem flushLoop_reset (N : Nat) (env : Env) (fuel : Nat) (m : Sys) (b : Nat)
    (hne : m.st.uartTxHead ≠ m.st.uartTxTail)
    (hrx : env.rxne m.hw.rxPolls = some b) (hb : b % 256 = 0x52) :
    flushLoop N env (fuel + 1) m = some ((UART_ProcessCommand env m).1, false) := by
  unfold flushLoop
  simp only [BUFFER_IS_EMPTY, beq_iff_eq, hne, if_false]
  rw [poll_reset env m b hrx hb]
  simp

/-- The store loop on a batch split in two runs the second part from the state
left by the first: that state is the one in which the first value of the second
part is written. -/
theorem storeLoop_append (N : Nat) (env : Env) (pre post : List Nat) (m : Sys) :
    storeLoop N env (pre ++ post) m = storeLoop N env post (storeLoop N env pre m) := by
  induction pre generalizing m with
  | nil => rfl
  | cons v rest ih =>
    simp only [List.cons_append, storeLoop]
    exact ih _

/-- A poll that leaves the gate enabled leaves a non-empty buffer non-empty. -/
theorem poll_keeps_nonempty (env : Env) (m : Sys)
    (hne : BUFFER_IS_EMPTY m.st = false)
    (hgate : (UART_ProcessCommand env m).1.st.uartTransmitEnabled ≠ 0) :
    BUFFER_IS_EMPTY (UART_ProcessCommand env m).1.st = false := by
  obtain ⟨e1, e2⟩ := poll_gate_on env m hgate
  simpa [BUFFER_IS_EMPTY, e1, e2] using hne

/-- Every state in which the drain loop reads the record at tail has a non-empty
buffer. -/
theorem flushLoopReads_nonempty (N : Nat) (env : Env) (fuel : Nat) (m s : Sys)
    (hs : s ∈ flushLoopReads N env fuel m) : BUFFER_IS_EMPTY s.st = false := by
  induction fuel generalizing m with
  | zero => simp [flushLoopReads] at hs
  | succ f ih =>
    unfold flushLoopReads at hs
    by_cases he : BUFFER_IS_EMPTY m.st = true
    · simp [he] at hs
    · by_cases hg : (UART_ProcessCommand env m).1.st.uartTransmitEnabled = 0
      · simp [he, hg] at hs
      · simp only [he, hg, if_false, Bool.false_eq_true] at hs
        rcases List.mem_cons.1 hs with h | h
        · rw [h]; exact poll_keeps_nonempty env m (by simpa using he) hg
        · split_ifs at h
          · exact ih _ h
          · simp at h

/-! ## The TXE wait and its budget -/

/-- The TXE wait when the flag is first seen set at read `n`, with `n` at most
the initial value of `timeout`: the wait ends there, after `n + 1` reads. -/
theorem waitTXE_at (txe : Nat → Bool) (timeout k n : Nat) (hn : n ≤ timeout)
    (hclear : ∀ i, i < n → txe (k + i) = false) (hset : txe (k + n) = true) :
    waitTXE txe timeout k = (true, k + n + 1) := by
  induction n generalizing timeout k with
  | zero => unfold waitTXE; simp [show txe k = true by simpa using hset]
  | succ n ih =>
    cases timeout with
    | zero => omega
    | succ t =>
      have h0 : txe k = false := by simpa using hclear 0 (by omega)
      unfold waitTXE
      simp only [h0, Bool.false_eq_true, if_false]
      rw [ih t (k + 1) (by omega)
        (fun i hi => by rw [show k + 1 + i = k + (i + 1) by omega]; exact hclear (i + 1) (by omega))
        (by rw [show k + 1 + n = k + (n + 1) by omega]; exact hset)]
      rw [show k + 1 + n + 1 = k + (n + 1) + 1 by omega]

/-- The TXE wait when the flag is clear at the first `timeout + 1` reads: the
wait runs out after exactly `timeout + 1` reads. -/
theorem waitTXE_never (txe : Nat → Bool) (timeout k : Nat)
    (hclear : ∀ i, i ≤ timeout → txe (k + i) = false) :
    waitTXE txe timeout k = (false, k + timeout + 1) := by
  induction timeout generalizing k with
  | zero =>
    have h0 : txe k = false := by simpa using hclear 0 (by omega)
    unfold waitTXE; simp [h0]
  | succ t ih =>
    have h0 : txe k = false := by simpa using hclear 0 (by omega)
    unfold waitTXE
    simp only [h0, Bool.false_eq_true, if_false]
    rw [ih (k + 1)
      (fun i hi => by rw [show k + 1 + i = k + (i + 1) by omega]; exact hclear (i + 1) (by omega))]
    rw [show k + 1 + t + 1 = k + (t + 1) + 1 by omega]

/-- The TXE wait makes at least one and at most `timeout + 1` reads. -/
theorem waitTXE_reads (txe : Nat → Bool) (timeout k : Nat) :
    k + 1 ≤ (waitTXE txe timeout k).2 ∧ (waitTXE txe timeout k).2 ≤ k + timeout + 1 := by
  induction timeout generalizing k with
  | zero => unfold waitTXE; split_ifs <;> simp
  | succ t ih =>
    unfold waitTXE
    split_ifs
    · simp
    · have := ih (k + 1)
      simp only []
      omega

/-- The transmit loop at a byte whose wait ends with TXE set: the byte is
written and the loop goes on with the remaining bytes. -/
theorem transmitBytes_cons_ok (env : Env) (b : Nat) (rest : List Nat) (m : Sys) (k : Nat)
    (hw : waitTXE env.txe 5000 m.hw.txePolls = (true, k)) :
    transmitBytes env (b :: rest) m
      = transmitBytes env rest
          { st := m.st, hw := { m.hw with txePolls := k, sent := m.hw.sent ++ [b] } } := by
  simp only [transmitBytes, hw, if_true]

/-- The transmit loop at a byte whose wait runs out: the loop stops and the byte
is not written. -/
theorem transmitBytes_cons_out (env : Env) (b : Nat) (rest : List Nat) (m : Sys) (k : Nat)
    (hw : waitTXE env.txe 5000 m.hw.txePolls = (false, k)) :
    transmitBytes env (b :: rest) m
      = ({ st := m.st, hw := { m.hw with txePolls := k } }, false) := by
  simp only [transmitBytes, hw, Bool.false_eq_true, if_false]

/-- Transmitting a list of bytes split in two: the second part is transmitted
from the state left by the first when the first went through, and not at all
otherwise. -/
theorem transmitBytes_append (env : Env) (pre post : List Nat) (m : Sys) :
    transmitBytes env (pre ++ post) m
      = if (transmitBytes env pre m).2 then transmitBytes env post (transmitBytes env pre m).1
        else transmitBytes env pre m := by
  induction pre generalizing m with
  | nil => simp [transmitBytes]
  | cons b rest ih =>
    simp only [List.cons_append, transmitBytes]
    split_ifs with h1 h2 h3
    · exact (ih _).trans (if_pos h2)
    · exact (ih _).trans (if_neg h2)
    · simp at h3
    · rfl

/-- Bytes that went through are on the wire, in order, after those sent
before. -/
theorem transmitBytes_sent (env : Env) (bytes : List Nat) (m : Sys)
    (hok : (transmitBytes env bytes m).2 = true) :
    (transmitBytes env bytes m).1.hw.sent = m.hw.sent ++ bytes := by
  induction bytes generalizing m with
  | nil => simp [transmitBytes]
  | cons b rest ih =>
    simp only [transmitBytes] at hok ⊢
    split_ifs at hok ⊢ with h1
    rw [ih _ hok]; simp

/-- When the first `j` bytes go through and the wait for byte `j` runs out, the
transmit loop fails with exactly the first `j` bytes sent. -/
theorem transmitBytes_timeout (env : Env) (bytes : List Nat) (j : Nat) (m : Sys)
    (hj : j < bytes.length)
    (hpre : (transmitBytes env (bytes.take j) m).2 = true)
    (hout : (waitTXE env.txe 5000 (transmitBytes env (bytes.take j) m).1.hw.txePolls).1 = false) :
    (transmitBytes env bytes m).2 = false
    ∧ (transmitBytes env bytes m).1.hw.sent = m.hw.sent ++ bytes.take j := by
  have hsplit : bytes = bytes.take j ++ bytes.drop j := (List.take_append_drop j bytes).symm
  obtain ⟨b, rest, hd⟩ : ∃ b rest, bytes.drop j = b :: rest := by
    cases hdr : bytes.drop j with
    | nil =>
      have := congrArg List.length hdr
      simp at this; omega
    | cons b rest => exact ⟨b, rest, rfl⟩
  have hsent := transmitBytes_sent env (bytes.take j) m hpre
  have hrun : transmitBytes env bytes m
      = transmitBytes env (b :: rest) (transmitBytes env (bytes.take j) m).1 := by
    conv_lhs => rw [hsplit, transmitBytes_append, if_pos hpre, hd]
  rw [hrun]
  simp only [transmitBytes, hout, Bool.false_eq_true, if_false]
  exact ⟨trivial, hsent⟩

/-! ## Flushing without inbound bytes -/

/-- The guard at the top of both flush functions lets an initialised system with
a non-empty buffer through. -/
theorem flush_guard_false (m : Sys) (hinit : m.st.selectedUART ≠ none)
    (hne : m.st.uartTxHead ≠ m.st.uartTxTail) :
    (BUFFER_IS_EMPTY m.st || m.st.selectedUART == none) = false := by
  cases hsel : m.st.selectedUART with
  | none => exact absurd hsel hinit
  | some a => simp [BUFFER_IS_EMPTY, hne]

/-- One `UART_FlushOne` call on a non-empty buffer with the gate enabled, no byte
at the poll and TXE and TC always set. -/
theorem flushOne_quiet (N : Nat) (env : Env) (fuel : Nat) (m : Sys)
    (hN : 0 < N) (hN16 : N ≤ 65536) (hfuel : 0 < fuel)
    (hinit : m.st.selectedUART ≠ none)
    (hne : m.st.uartTxHead ≠ m.st.uartTxTail)
    (hgate : m.st.uartTransmitEnabled ≠ 0)
    (hrx : env.rxne m.hw.rxPolls = none)
    (htxe : ∀ k, env.txe k = true) (htc : ∀ k, env.tc k = true) :
    ∃ m1 : Sys, UART_FlushOne N env fuel m = some (m1, 1)
      ∧ m1.st.uartTxHead = m.st.uartTxHead
      ∧ m1.st.uartTxTail = (m.st.uartTxTail + 1) % N
      ∧ m1.st.uartTxBuffer = m.st.uartTxBuffer
      ∧ m1.st.uartPayloadSize = m.st.uartPayloadSize
      ∧ m1.st.selectedUART = m.st.selectedUART
      ∧ m1.st.uartTransmitEnabled = m.st.uartTransmitEnabled
      ∧ m1.hw.rxPolls = m.hw.rxPolls + 1
      ∧ m1.hw.sent = m.hw.sent
          ++ packetOf m.st.uartPayloadSize (m.st.uartTxBuffer m.st.uartTxTail) := by
  have hst := poll_none_st env m hrx
  have ehw := poll_hw env m
  have hg : (UART_ProcessCommand env m).1.st.uartTransmitEnabled ≠ 0 := by rw [hst]; exact hgate
  unfold UART_FlushOne
  simp only [flush_guard_false m hinit hne, Bool.false_eq_true, if_false, if_neg hg,
    transmitBytes_ready env htxe, if_true, waitTC_ready env.tc fuel _ hfuel (htc _)]
  refine ⟨_, rfl, ?_, ?_, ?_, ?_, ?_, ?_, ?_, ?_⟩
  · simp only [hst]
  · simp only [hst]; exact (next_index N _ hN hN16).1
  · simp only [hst]
  · simp only [hst]
  · simp only [hst]
  · simp only [hst]
  · simp only [ehw]
  · simp only [ehw, hst, packBytes_eq]

/-- Running `UART_FlushOne` `k` times, for `k` at most the number of queued
records, with the gate enabled, no inbound byte and TXE and TC always set: every
call returns 1 and the packets of the first `k` records go out in queue
order. -/
theorem flushOne_iterate (N : Nat) (env : Env) (fuel : Nat) (hN : 0 < N) (hN16 : N ≤ 65536)
    (hfuel : 0 < fuel) (hrx : ∀ k, env.rxne k = none)
    (htxe : ∀ k, env.txe k = true) (htc : ∀ k, env.tc k = true) (k : Nat) (m : Sys)
    (hh : m.st.uartTxHead < N) (ht : m.st.uartTxTail < N)
    (hinit : m.st.selectedUART ≠ none)
    (hk : k ≤ usedSlots N m.st.uartTxHead m.st.uartTxTail)
    (hgate : m.st.uartTransmitEnabled ≠ 0) :
    ∃ mk : Sys,
      runCalls N env fuel (List.replicate k DataCall.flushOne) m
        = some (mk, List.replicate k 1)
      ∧ mk.st.uartTxHead = m.st.uartTxHead
      ∧ mk.st.uartTxTail = (m.st.uartTxTail + k) % N
      ∧ mk.st.uartTxBuffer = m.st.uartTxBuffer
      ∧ mk.st.uartPayloadSize = m.st.uartPayloadSize
      ∧ mk.st.selectedUART = m.st.selectedUART
      ∧ mk.st.uartTransmitEnabled = m.st.uartTransmitEnabled
      ∧ mk.hw.sent = m.hw.sent
          ++ (queueFrom N m.st.uartTxBuffer m.st.uartTxTail k).flatMap
              (packetOf m.st.uartPayloadSize) := by
  induction k generalizing m with
  | zero =>
    exact ⟨m, rfl, rfl, by simp [Nat.mod_eq_of_lt ht], rfl, rfl, rfl, rfl, by simp [queueFrom]⟩
  | succ k ih =>
    have hne : m.st.uartTxHead ≠ m.st.uartTxTail := by
      intro h
      rw [usedSlots_eq N _ _ hh ht, h] at hk
      simp at hk
    obtain ⟨m1, s0, s1, s2, s3, s4, s5, s6, -, s8⟩ :=
      flushOne_quiet N env fuel m hN hN16 hfuel hinit hne hgate (hrx _) htxe htc
    have hpop := usedSlots_pop N _ _ hh ht hne
    obtain ⟨mk, t0, t1, t2, t3, t4, t5, t6, t7⟩ := ih m1
      (by rw [s1]; exact hh) (by rw [s2]; exact Nat.mod_lt _ hN)
      (by rw [s5]; exact hinit) (by rw [s1, s2]; omega) (by rw [s6]; exact hgate)
    refine ⟨mk, ?_, t1.trans s1, ?_, t3.trans s3, t4.trans s4, t5.trans s5, t6.trans s6, ?_⟩
    · simp only [List.replicate_succ, runCalls, DataCall.run, s0, t0]
    · rw [t2, s2, Nat.add_mod ((m.st.uartTxTail + 1) % N), Nat.mod_mod, ← Nat.add_mod]
      rw [show m.st.uartTxTail + 1 + k = m.st.uartTxTail + (k + 1) by omega]
    · rw [t7, s8, s2, s3, s4, queueFrom_pop N _ _ _ ht, List.flatMap_cons, List.append_assoc]

/-- One `UART_FlushBuffer` call on a non-empty buffer with the gate enabled, no
inbound byte, TXE and TC always set and fuel above the number of queued
records. -/
theorem flushBuffer_quiet (N : Nat) (env : Env) (fuel : Nat) (m : Sys)
    (hN16 : N ≤ 65536) (hh : m.st.uartTxHead < N) (ht : m.st.uartTxTail < N)
    (hinit : m.st.selectedUART ≠ none)
    (hk : 1 ≤ usedSlots N m.st.uartTxHead m.st.uartTxTail)
    (hfuel : usedSlots N m.st.uartTxHead m.st.uartTxTail < fuel)
    (hgate : m.st.uartTransmitEnabled ≠ 0)
    (hrx : ∀ k, env.rxne k = none)
    (htxe : ∀ k, env.txe k = true) (htc : ∀ k, env.tc k = true) :
    ∃ m1 : Sys, UART_FlushBuffer N env fuel m = some (m1, 1)
      ∧ m1.st.uartTxHead = m.st.uartTxHead
      ∧ m1.st.uartTxTail = m.st.uartTxHead
      ∧ m1.st.uartTxBuffer = m.st.uartTxBuffer
      ∧ m1.st.uartPayloadSize = m.st.uartPayloadSize
      ∧ m1.st.selectedUART = m.st.selectedUART
      ∧ m1.st.uartTransmitEnabled = m.st.uartTransmitEnabled
      ∧ m1.hw.sent = m.hw.sent ++ (contents N m.st).flatMap (packetOf m.st.uartPayloadSize) := by
  have hN : 0 < N := by omega
  have hne : m.st.uartTxHead ≠ m.st.uartTxTail := by
    intro h
    rw [usedSlots_eq N _ _ hh ht, h] at hk
    simp at hk
  obtain ⟨mj, t0, t1, t2, t3, t4, t5, -, -, t8, -, -, -, t12⟩ :=
    flushLoop_iterate N env hN hN16 htxe (usedSlots N m.st.uartTxHead m.st.uartTxTail) m
      hh ht (Nat.le_refl _) hgate (fun i _ b hb => by rw [hrx] at hb; cases hb)
  rw [tail_add_used N _ _ hh ht] at t2
  have hloop : flushLoop N env fuel m = some (mj, true) := by
    rw [show fuel = (fuel - usedSlots N m.st.uartTxHead m.st.uartTxTail)
          + usedSlots N m.st.uartTxHead m.st.uartTxTail by omega, t0]
    exact flushLoop_empty N env _ mj (by omega) (by rw [t1, t2])
  refine ⟨{ st := mj.st, hw := { mj.hw with tcPolls := mj.hw.tcPolls + 1 } }, ?_, t1, t2, t3,
    t4, t5, t8 (fun i _ => hrx _), t12⟩
  unfold UART_FlushBuffer
  simp only [flush_guard_false m hinit hne, Bool.false_eq_true, if_false, hloop,
    waitTC_ready env.tc fuel _ (by omega) (htc _)]

/-! ## Invariants of the flush functions -/

/-- A property of the static variables and of the RXNE read count that is kept
by the command poll and by the advance of tail (made with the gate enabled and
the buffer non-empty) is kept by the drain loop. -/
theorem flushLoop_invariant (N : Nat) (env : Env) (P : Sys → Prop)
    (hext : ∀ a b : Sys, a.st = b.st → a.hw.rxPolls = b.hw.rxPolls → P a → P b)
    (hpoll : ∀ a, P a → P (UART_ProcessCommand env a).1)
    (hadv : ∀ a : Sys, P a → a.st.uartTransmitEnabled ≠ 0 → a.st.uartTxHead ≠ a.st.uartTxTail →
      P { st := { a.st with uartTxTail := BUFFER_NEXT N a.st.uartTxTail % 65536 }, hw := a.hw })
    (fuel : Nat) (m m1 : Sys) (b : Bool)
    (h : flushLoop N env fuel m = some (m1, b)) (hP : P m) : P m1 := by
  induction fuel generalizing m with
  | zero => simp [flushLoop] at h
  | succ f ih =>
    unfold flushLoop at h
    by_cases he : BUFFER_IS_EMPTY m.st = true
    · simp only [he, if_true, Option.some.injEq, Prod.mk.injEq] at h
      rw [← h.1]; exact hP
    · have hne : BUFFER_IS_EMPTY m.st = false := by simpa using he
      simp only [hne, Bool.false_eq_true, if_false] at h
      have hP1 := hpoll m hP
      by_cases hg : (UART_ProcessCommand env m).1.st.uartTransmitEnabled = 0
      · simp only [hg, if_true, Option.some.injEq, Prod.mk.injEq] at h
        rw [← h.1]; exact hP1
      · simp only [hg, if_false] at h
        have hne1 := poll_keeps_nonempty env m hne hg
        obtain ⟨f1, f2, -, -⟩ := transmitBytes_frame env
          (packBytes (UART_ProcessCommand env m).1.st.uartPayloadSize
            ((UART_ProcessCommand env m).1.st.uartTxBuffer
              (UART_ProcessCommand env m).1.st.uartTxTail))
          (UART_ProcessCommand env m).1
        have hP2 := hext _ _ f1.symm f2.symm hP1
        split_ifs at h with hok
        · exact ih _ h (hext _ _ (by rfl) (by rfl) (hadv _ hP2 (by rw [f1]; exact hg)
            (by rw [f1]; simpa [BUFFER_IS_EMPTY] using hne1)))
        · simp only [Option.some.injEq, Prod.mk.injEq] at h
          rw [← h.1]; exact hP2

/-- The same property is kept by `UART_FlushBuffer`. -/
theorem flushBuffer_invariant (N : Nat) (env : Env) (P : Sys → Prop)
    (hext : ∀ a b : Sys, a.st = b.st → a.hw.rxPolls = b.hw.rxPolls → P a → P b)
    (hpoll : ∀ a, P a → P (UART_ProcessCommand env a).1)
    (hadv : ∀ a : Sys, P a → a.st.uartTransmitEnabled ≠ 0 → a.st.uartTxHead ≠ a.st.uartTxTail →
      P { st := { a.st with uartTxTail := BUFFER_NEXT N a.st.uartTxTail % 65536 }, hw := a.hw })
    (fuel : Nat) (m m1 : Sys) (r : Nat)
    (h : UART_FlushBuffer N env fuel m = some (m1, r)) (hP : P m) : P m1 := by
  unfold UART_FlushBuffer at h
  split_ifs at h with hguard
  · simp only [Option.some.injEq, Prod.mk.injEq] at h
    rw [← h.1]; exact hP
  · cases hl : flushLoop N env fuel m with
    | none => rw [hl] at h; cases h
    | some p =>
      obtain ⟨m2, b⟩ := p
      have hP2 := flushLoop_invariant N env P hext hpoll hadv fuel m m2 b hl hP
      rw [hl] at h
      cases b with
      | false =>
        simp only [Option.some.injEq, Prod.mk.injEq] at h
        rw [← h.1]; exact hP2
      | true =>
        simp only [] at h
        cases hw : waitTC env.tc fuel m2.hw.tcPolls with
        | none => rw [hw] at h; cases h
        | some k =>
          rw [hw] at h
          simp only [Option.some.injEq, Prod.mk.injEq] at h
          rw [← h.1]; exact hext _ _ (by rfl) (by rfl) hP2

/-- The same property is kept by `UART_FlushOne`. -/
theorem flushOne_invariant (N : Nat) (env : Env) (P : Sys → Prop)
    (hext : ∀ a b : Sys, a.st = b.st → a.hw.rxPolls = b.hw.rxPolls → P a → P b)
    (hpoll : ∀ a, P a → P (UART_ProcessCommand env a).1)
    (hadv : ∀ a : Sys, P a → a.st.uartTransmitEnabled ≠ 0 → a.st.uartTxHead ≠ a.st.uartTxTail →
      P { st := { a.st with uartTxTail := BUFFER_NEXT N a.st.uartTxTail % 65536 }, hw := a.hw })
    (fuel : Nat) (m m1 : Sys) (r : Nat)
    (h : UART_FlushOne N env fuel m = some (m1, r)) (hP : P m) : P m1 := by
  unfold UART_FlushOne at h
  by_cases hguard : (BUFFER_IS_EMPTY m.st || m.st.selectedUART == none) = true
  · simp only [hguard, if_true, Option.some.injEq, Prod.mk.injEq] at h
    rw [← h.1]; exact hP
  · have hguard2 : (BUFFER_IS_EMPTY m.st || m.st.selectedUART == none) = false := by
      simpa using hguard
    simp only [hguard2, Bool.false_eq_true, if_false] at h
    have hne : BUFFER_IS_EMPTY m.st = false := by
      have : BUFFER_IS_EMPTY m.st = false ∧ ¬m.st.selectedUART = none := by simpa using hguard
      exact this.1
    have hP1 := hpoll m hP
    by_cases hg : (UART_ProcessCommand env m).1.st.uartTransmitEnabled = 0
    · simp only [hg, if_true, Option.some.injEq, Prod.mk.injEq] at h
      rw [← h.1]; exact hP1
    · simp only [hg, if_false] at h
      have hne1 := poll_keeps_nonempty env m hne hg
      obtain ⟨f1, f2, -, -⟩ := transmitBytes_frame env
        (packBytes (UART_ProcessCommand env m).1.st.uartPayloadSize
          ((UART_ProcessCommand env m).1.st.uartTxBuffer
            (UART_ProcessCommand env m).1.st.uartTxTail))
        (UART_ProcessCommand env m).1
      have hP2 := hext _ _ f1.symm f2.symm hP1
      split_ifs at h with hok
      · cases hw : waitTC env.tc fuel
            (transmitBytes env
              (packBytes (UART_ProcessCommand env m).1.st.uartPayloadSize
                ((UART_ProcessCommand env m).1.st.uartTxBuffer
                  (UART_ProcessCommand env m).1.st.uartTxTail))
              (UART_ProcessCommand env m).1).1.hw.tcPolls with
        | none => rw [hw] at h; cases h
        | some k =>
          rw [hw] at h
          simp only [Option.some.injEq, Prod.mk.injEq] at h
          rw [← h.1]
          exact hext _ _ (by rfl) (by rfl) (hadv _ hP2 (by rw [f1]; exact hg)
            (by rw [f1]; simpa [BUFFER_IS_EMPTY] using hne1))
      · simp only [Option.some.injEq, Prod.mk.injEq] at h
        rw [← h.1]; exact hP2

/-! ## Return of the flush functions -/

/-- With indices in range and fuel above the number of queued records the drain
loop returns, whatever the inbound bytes and the TXE flag do. -/
theorem flushLoop_returns (N : Nat) (env : Env) (hN16 : N ≤ 65536) (fuel : Nat) (m : Sys)
    (hh : m.st.uartTxHead < N) (ht : m.st.uartTxTail < N)
    (hfuel : usedSlots N m.st.uartTxHead m.st.uartTxTail < fuel) :
    ∃ r, flushLoop N env fuel m = some r := by
  have hN : 0 < N := by omega
  induction fuel generalizing m with
  | zero => omega
  | succ f ih =>
    unfold flushLoop
    by_cases he : BUFFER_IS_EMPTY m.st = true
    · simp only [he, if_true]; exact ⟨_, rfl⟩
    · have hne : BUFFER_IS_EMPTY m.st = false := by simpa using he
      simp only [hne, Bool.false_eq_true, if_false]
      by_cases hg : (UART_ProcessCommand env m).1.st.uartTransmitEnabled = 0
      · simp only [hg, if_true]; exact ⟨_, rfl⟩
      · simp only [hg, if_false]
        obtain ⟨e1, e2⟩ := poll_gate_on env m hg
        obtain ⟨f1, -, -, -⟩ := transmitBytes_frame env
          (packBytes (UART_ProcessCommand env m).1.st.uartPayloadSize
            ((UART_ProcessCommand env m).1.st.uartTxBuffer
              (UART_ProcessCommand env m).1.st.uartTxTail))
          (UART_ProcessCommand env m).1
        have hhead : m.st.uartTxHead ≠ m.st.uartTxTail := by
          simpa [BUFFER_IS_EMPTY] using hne
        have hpop := usedSlots_pop N _ _ hh ht hhead
        split_ifs with hok
        · apply ih
          · simp only [f1]; simp only [e1]; exact hh
          · simp only [f1]; simp only [e2, (next_index N _ hN hN16).1]; exact Nat.mod_lt _ hN
          · simp only [f1]; simp only [e1, e2, (next_index N _ hN hN16).1]
            omega
        · exact ⟨_, rfl⟩

/-- With TC always set and fuel left `UART_FlushOne` returns; with indices in
range and fuel above the number of queued records so does
`UART_FlushBuffer`. -/
theorem flush_returns (N : Nat) (env : Env) (hN16 : N ≤ 65536) (fuel : Nat) (m : Sys)
    (hh : m.st.uartTxHead < N) (ht : m.st.uartTxTail < N)
    (hfuel : usedSlots N m.st.uartTxHead m.st.uartTxTail < fuel)
    (htc : ∀ k, env.tc k = true) :
    (∃ r, UART_FlushOne N env fuel m = some r)
    ∧ (∃ r, UART_FlushBuffer N env fuel m = some r) := by
  have hpos : 0 < fuel := by omega
  constructor
  · unfold UART_FlushOne
    simp only []
    split_ifs
    · exact ⟨_, rfl⟩
    · exact ⟨_, rfl⟩
    · rw [waitTC_ready env.tc fuel _ hpos (htc _)]
      exact ⟨_, rfl⟩
    · exact ⟨_, rfl⟩
  · obtain ⟨r, hr⟩ := flushLoop_returns N env hN16 fuel m hh ht hfuel
    obtain ⟨m1, b⟩ := r
    unfold UART_FlushBuffer
    split_ifs
    · exact ⟨_, rfl⟩
    · rw [hr]
      cases b with
      | false => exact ⟨_, rfl⟩
      | true =>
        simp only []
        rw [waitTC_ready env.tc fuel _ hpos (htc _)]
        exact ⟨_, rfl⟩

/-! ## Invariants of the API calls -/

/-- The store loop keeps head in range. -/
theorem storeLoop_head_lt (N : Nat) (env : Env) (vals : List Nat) (m : Sys)
    (hh : m.st.uartTxHead < N) : (storeLoop N env vals m).st.uartTxHead < N := by
  induction vals generalizing m with
  | nil => exact hh
  | cons v rest ih =>
    simp only [storeLoop]
    apply ih
    have h1 : (m.st.uartTxHead + 1) % N < N := Nat.mod_lt _ (by omega)
    have h2 : BUFFER_NEXT N m.st.uartTxHead % 65536 ≤ (m.st.uartTxHead + 1) % N :=
      Nat.mod_le _ _
    exact Nat.lt_of_le_of_lt h2 h1

/-- The command poll keeps both indices in range. -/
theorem poll_range (N : Nat) (env : Env) (m : Sys)
    (hh : m.st.uartTxHead < N) (ht : m.st.uartTxTail < N) :
    (UART_ProcessCommand env m).1.st.uartTxHead < N
    ∧ (UART_ProcessCommand env m).1.st.uartTxTail < N := by
  have hN : 0 < N := by omega
  unfold UART_ProcessCommand
  cases env.rxne m.hw.rxPolls with
  | none => exact ⟨hh, ht⟩
  | some b =>
    simp only []
    split_ifs
    · exact ⟨hh, ht⟩
    · exact ⟨hN, hN⟩
    · exact ⟨hh, ht⟩

/-- The command poll keeps the property that a disabled gate goes with an empty
buffer. -/
theorem poll_gate_empty (env : Env) (m : Sys)
    (h : m.st.uartTransmitEnabled = 0 → m.st.uartTxHead = m.st.uartTxTail) :
    (UART_ProcessCommand env m).1.st.uartTransmitEnabled = 0 →
      (UART_ProcessCommand env m).1.st.uartTxHead = (UART_ProcessCommand env m).1.st.uartTxTail := by
  unfold UART_ProcessCommand
  cases env.rxne m.hw.rxPolls with
  | none => exact h
  | some b =>
    simp only []
    split_ifs
    · intro h1; simp at h1
    · intro _; rfl
    · exact h

/-- A property of the static variables that is kept by `UART_Init`, by the
command poll, by the store loop run with the gate enabled and by the advance of
tail made with the gate enabled is kept by every API call. -/
theorem apiCall_invariant (N : Nat) (env : Env) (fuel : Nat) (P : UartState → Prop)
    (hinitP : ∀ (u t : Nat) (w : UART_PayloadSize) (a : Sys), P a.st → P (UART_Init u t w a).st)
    (hpoll : ∀ a : Sys, P a.st → P (UART_ProcessCommand env a).1.st)
    (hstore : ∀ (vals : List Nat) (a : Sys), P a.st → a.st.uartTransmitEnabled ≠ 0 →
      P (storeLoop N env vals a).st)
    (hadv : ∀ s : UartState, P s → s.uartTransmitEnabled ≠ 0 → s.uartTxHead ≠ s.uartTxTail →
      P { s with uartTxTail := BUFFER_NEXT N s.uartTxTail % 65536 })
    (c : ApiCall) (m m1 : Sys) (h : c.run N env fuel m = some m1) (hP : P m.st) : P m1.st := by
  cases c with
  | init u t w =>
    simp only [ApiCall.run, Option.some.injEq] at h
    rw [← h]; exact hinitP u t w m hP
  | data d =>
    simp only [ApiCall.run] at h
    cases hd : d.run N env fuel m with
    | none => rw [hd] at h; cases h
    | some p =>
      obtain ⟨m2, r⟩ := p
      rw [hd] at h
      simp only [Option.some.injEq] at h
      rw [← h]
      cases d with
      | store vals =>
        simp only [DataCall.run, Option.some.injEq] at hd
        have hm2 : m2 = (UART_StoreData N env m vals).1 := by rw [hd]
        rw [hm2]
        unfold UART_StoreData
        simp only []
        split_ifs with h1 h2 h3
        · exact hP
        · exact hpoll m hP
        · exact hpoll m hP
        · exact hstore vals _ (hpoll m hP) h2
      | flushOne =>
        exact flushOne_invariant N env (fun a => P a.st)
          (fun a b hst _ ha => by dsimp only at ha ⊢; rw [← hst]; exact ha)
          hpoll (fun a ha hg hne => hadv a.st ha hg hne) fuel m m2 r hd hP
      | flushBuffer =>
        exact flushBuffer_invariant N env (fun a => P a.st)
          (fun a b hst _ ha => by dsimp only at ha ⊢; rw [← hst]; exact ha)
          hpoll (fun a ha hg hne => hadv a.st ha hg hne) fuel m m2 r hd hP

/-- An invariant of every API call is an invariant of every sequence of them. -/
theorem runApi_invariant (N : Nat) (env : Env) (fuel : Nat) (P : UartState → Prop)
    (hstep : ∀ (c : ApiCall) (m m1 : Sys), c.run N env fuel m = some m1 → P m.st → P m1.st)
    (calls : List ApiCall) (m0 m : Sys)
    (h : runApi N env fuel calls m0 = some m) (hP : P m0.st) : P m.st := by
  induction calls generalizing m0 with
  | nil =>
    simp only [runApi, Option.some.injEq] at h
    rw [← h]; exact hP
  | cons c rest ih =>
    simp only [runApi] at h
    cases hc : c.run N env fuel m0 with
    | none => rw [hc] at h; cases h
    | some m1 =>
      rw [hc] at h
      exact ih m1 h (hstep c m0 m1 hc hP)

/-- Every state in which the drain loop reads the record at tail has tail in
range, when the loop starts with both indices in range. -/
theorem flushLoopReads_range (N : Nat) (env : Env) (fuel : Nat) (m s : Sys)
    (hh : m.st.uartTxHead < N) (ht : m.st.uartTxTail < N)
    (hs : s ∈ flushLoopReads N env fuel m) : s.st.uartTxTail < N := by
  induction fuel generalizing m with
  | zero => simp [flushLoopReads] at hs
  | succ f ih =>
    obtain ⟨p1, p2⟩ := poll_range N env m hh ht
    obtain ⟨f1, -, -, -⟩ := transmitBytes_frame env
      (packBytes (UART_ProcessCommand env m).1.st.uartPayloadSize
        ((UART_ProcessCommand env m).1.st.uartTxBuffer
          (UART_ProcessCommand env m).1.st.uartTxTail))
      (UART_ProcessCommand env m).1
    unfold flushLoopReads at hs
    by_cases he : BUFFER_IS_EMPTY m.st = true
    · simp [he] at hs
    · by_cases hg : (UART_ProcessCommand env m).1.st.uartTransmitEnabled = 0
      · simp [he, hg] at hs
      · simp only [he, hg, if_false, Bool.false_eq_true] at hs
        rcases List.mem_cons.1 hs with h | h
        · rw [h]; exact p2
        · split_ifs at h
          · refine ih _ ?_ ?_ h
            · simp only [f1]; exact p1
            · simp only [f1]
              exact Nat.lt_of_le_of_lt (Nat.mod_le _ _) (Nat.mod_lt _ (by omega))
          · simp at h

/-! ## Store: rejection -/

/-- A store that reaches the capacity check with a batch longer than the free
slots returns the state left by the poll, in which head, tail and the slots are
as before the call. -/
theorem rejected_store_frame (N : Nat) (env : Env) (m : Sys) (dataArray : List Nat)
    (hinit : m.st.selectedUART ≠ none)
    (hgate : (UART_ProcessCommand env m).1.st.uartTransmitEnabled ≠ 0)
    (hroom : freeSlots N m.st.uartTxHead m.st.uartTxTail < dataArray.length) :
    (UART_StoreData N env m dataArray).1.st.uartTxHead = m.st.uartTxHead
    ∧ (UART_StoreData N env m dataArray).1.st.uartTxTail = m.st.uartTxTail
    ∧ (UART_StoreData N env m dataArray).1.st.uartTxBuffer = m.st.uartTxBuffer
    ∧ contents N (UART_StoreData N env m dataArray).1.st = contents N m.st := by
  obtain ⟨hh, ht⟩ := poll_gate_on env m hgate
  obtain ⟨hb, -, -, -⟩ := poll_frame env m
  have hS : UART_StoreData N env m dataArray = ((UART_ProcessCommand env m).1, 0) := by
    unfold UART_StoreData
    rw [if_neg hinit]
    simp only []
    rw [if_neg hgate, hh, ht, if_pos hroom]
  rw [hS]
  simp [hh, ht, hb, contents]

/-- C1: when `UART_StoreData` reaches the capacity check (initialised, gate
enabled after the command poll) and the batch is longer than the free slots,
it returns 0 and head, tail and every buffer slot are as before the call, so
the occupied-slot count and the queue are unchanged and no value of the batch
was admitted. -/
theorem store_rejected_unchanged (N : Nat) (env : Env) (m : Sys) (dataArray : List Nat)
    (hinit : m.st.selectedUART ≠ none)
    (hgate : (UART_ProcessCommand env m).1.st.uartTransmitEnabled ≠ 0)
    (hroom : freeSlots N m.st.uartTxHead m.st.uartTxTail < dataArray.length) :
    (UART_StoreData N env m dataArray).2 = 0
    ∧ (UART_StoreData N env m dataArray).1.st.uartTxHead = m.st.uartTxHead
    ∧ (UART_StoreData N env m dataArray).1.st.uartTxTail = m.st.uartTxTail
    ∧ (UART_StoreData N env m dataArray).1.st.uartTxBuffer = m.st.uartTxBuffer
    ∧ usedSlots N (UART_StoreData N env m dataArray).1.st.uartTxHead
        (UART_StoreData N env m dataArray).1.st.uartTxTail
        = usedSlots N m.st.uartTxHead m.st.uartTxTail
    ∧ contents N (UART_StoreData N env m dataArray).1.st = contents N m.st := by
  obtain ⟨hh, ht⟩ := poll_gate_on env m hgate
  obtain ⟨hb, -, -, -⟩ := poll_frame env m
  have hS : UART_StoreData N env m dataArray = ((UART_ProcessCommand env m).1, 0) := by
    unfold UART_StoreData
    rw [if_neg hinit]
    simp only []
    rw [if_neg hgate, hh, ht, if_pos hroom]
  rw [hS]
  simp [hh, ht, hb, contents]

/-- Witness for C1: capacity 4, the buffer holding three records, `Store([4])`. -/
theorem store_rejected_unchanged_witness :
    filledSys.st.selectedUART ≠ none
    ∧ (UART_ProcessCommand quietEnv filledSys).1.st.uartTransmitEnabled ≠ 0
    ∧ freeSlots 4 filledSys.st.uartTxHead filledSys.st.uartTxTail < [4].length
    ∧ (UART_StoreData 4 quietEnv filledSys [4]).2 = 0
    ∧ (UART_StoreData 4 quietEnv filledSys [4]).1.st.uartTxHead = 3
    ∧ (UART_StoreData 4 quietEnv filledSys [4]).1.st.uartTxTail = 0 :=
  have h := store_rejected_unchanged 4 quietEnv filledSys [4] (by decide) (by decide) (by decide)
  ⟨by decide, by decide, by decide, h.1, h.2.1.trans (by decide), h.2.2.1.trans (by decide)⟩

/-! ## Store: order -/

/-- C2: when `UART_StoreData` returns 1 (which excludes a consumed reset) from a
state with indices in range, the queue read from tail to head is the queue
before the call followed by one record per value, in batch order, the `i`-th
being the value modulo `2^(8w)` with the low byte of the `i`-th timestamp read;
tail is unchanged, so no queued record is overwritten or reordered. -/
theorem store_fifo (N : Nat) (env : Env) (m : Sys) (dataArray : List Nat)
    (hN16 : N ≤ 65536) (hh : m.st.uartTxHead < N) (ht : m.st.uartTxTail < N)
    (hok : (UART_StoreData N env m dataArray).2 = 1) :
    contents N (UART_StoreData N env m dataArray).1.st
      = contents N m.st
        ++ stampedRecords m.st.uartPayloadSize env.time m.hw.timeReads dataArray
    ∧ (UART_StoreData N env m dataArray).1.st.uartTxTail = m.st.uartTxTail
    ∧ (stampedRecords m.st.uartPayloadSize env.time m.hw.timeReads dataArray).length
        = dataArray.length := by
  obtain ⟨-, hgate, hroom, hS⟩ := (store_returns_one N env m dataArray).1 hok
  obtain ⟨e1, e2⟩ := poll_gate_on env m hgate
  obtain ⟨e3, -, -, e4⟩ := poll_frame env m
  have ehw := poll_hw env m
  rw [e1, e2, freeSlots_eq N _ _ hh ht hN16] at hroom
  have hused : usedSlots N m.st.uartTxHead m.st.uartTxTail < N := by
    rw [usedSlots_eq N _ _ hh ht]; split_ifs <;> omega
  obtain ⟨-, -, hc⟩ := storeLoop_contents N env hN16 dataArray (UART_ProcessCommand env m).1
    (by rw [e1]; exact hh) (by rw [e2]; exact ht) (by rw [e1, e2]; omega)
  obtain ⟨ft, -⟩ := storeLoop_frame N env dataArray (UART_ProcessCommand env m).1
  refine ⟨?_, ?_, ?_⟩
  · rw [hS, hc, e4, ehw]
    simp only [contents, e1, e2, e3]
  · rw [hS]; exact ft.trans e2
  · exact stampedRecords_length _ _ _ _

/-- Witness for C2: capacity 4, width 1, `Store([0x111, 0x22])` on the started
empty buffer. -/
theorem store_fifo_witness :
    (UART_StoreData 4 quietEnv (startedSys .UART_PAYLOAD_8) [0x111, 0x22]).2 = 1
    ∧ contents 4 (UART_StoreData 4 quietEnv (startedSys .UART_PAYLOAD_8) [0x111, 0x22]).1.st
        = [{ data := 0x11, timestamp := 0x7A }, { data := 0x22, timestamp := 0x7A }] :=
  ⟨by decide,
   (store_fifo 4 quietEnv (startedSys .UART_PAYLOAD_8) [0x111, 0x22]
      (by decide) (by decide) (by decide) (by decide)).1.trans (by decide)⟩

/-! ## Flushing one packet -/

/-- C3: for each payload width, on an initialised system with a non-empty
buffer, the gate enabled when it is checked (after the command poll), TXE and TC
always set and indices stored in range, `UART_FlushOne` returns 1, appends to
the bytes on the wire exactly the `w + 1` bytes of the record at tail (its low
`w` data bytes most significant first, then its timestamp byte), moves tail to
`(tail + 1) mod N` and leaves head and the slots unchanged. -/
theorem flushOne_packet (N : Nat) (env : Env) (fuel : Nat) (m : Sys)
    (hN : 0 < N) (hN16 : N ≤ 65536) (hfuel : 0 < fuel)
    (hinit : m.st.selectedUART ≠ none)
    (hne : m.st.uartTxHead ≠ m.st.uartTxTail)
    (hgate : (UART_ProcessCommand env m).1.st.uartTransmitEnabled ≠ 0)
    (htxe : ∀ k, env.txe k = true) (htc : ∀ k, env.tc k = true) :
    ∃ m1 : Sys, UART_FlushOne N env fuel m = some (m1, 1)
      ∧ m1.hw.sent = m.hw.sent
          ++ (dataBytesBE m.st.uartPayloadSize.toNat (m.st.uartTxBuffer m.st.uartTxTail).data
              ++ [(m.st.uartTxBuffer m.st.uartTxTail).timestamp % 256])
      ∧ m1.hw.sent.length = m.hw.sent.length + (m.st.uartPayloadSize.toNat + 1)
      ∧ m1.st.uartTxTail = (m.st.uartTxTail + 1) % N
      ∧ m1.st.uartTxHead = m.st.uartTxHead
      ∧ m1.st.uartTxBuffer = m.st.uartTxBuffer := by
  obtain ⟨e1, e2⟩ := poll_gate_on env m hgate
  obtain ⟨e3, -, -, e4⟩ := poll_frame env m
  have ehw := poll_hw env m
  have hguard : (BUFFER_IS_EMPTY m.st || m.st.selectedUART == none) = false := by
    cases hsel : m.st.selectedUART with
    | none => exact absurd hsel hinit
    | some a => simp [BUFFER_IS_EMPTY, hne]
  unfold UART_FlushOne
  simp only [hguard, Bool.false_eq_true, if_false, if_neg hgate,
    transmitBytes_ready env htxe, if_true, waitTC_ready env.tc fuel _ hfuel (htc _)]
  refine ⟨_, rfl, ?_, ?_, ?_, ?_, ?_⟩
  · simp only [e2, e3, e4, ehw, packBytes_eq, packetOf]
  · simp only [e2, e3, e4, ehw, packBytes_eq, List.length_append, packetOf_length]
  · simp only [e2]; exact (next_index N _ hN hN16).1
  · exact e1
  · exact e3

/-- Witness for C3: capacity 4, timestamp 0x7A; width 1 with 0x11 queued gives
the bytes 0x11, 0x7A, and width 2 with 0x1234 queued gives 0x12, 0x34, 0x7A. -/
theorem flushOne_packet_witness :
    (∃ m1 : Sys,
      UART_FlushOne 4 quietEnv 1
          (UART_StoreData 4 quietEnv (startedSys .UART_PAYLOAD_8) [0x11, 0x22]).1 = some (m1, 1)
      ∧ m1.hw.sent = [0x11, 0x7A] ∧ m1.st.uartTxTail = 1 ∧ m1.st.uartTxHead = 2)
    ∧ (∃ m1 : Sys,
      UART_FlushOne 4 quietEnv 1
          (UART_StoreData 4 quietEnv (startedSys .UART_PAYLOAD_16) [0x1234]).1 = some (m1, 1)
      ∧ m1.hw.sent = [0x12, 0x34, 0x7A] ∧ m1.st.uartTxTail = 1 ∧ m1.st.uartTxHead = 1) := by
  constructor
  · obtain ⟨m1, h1, h2, -, h4, h5, -⟩ := flushOne_packet 4 quietEnv 1
      (UART_StoreData 4 quietEnv (startedSys .UART_PAYLOAD_8) [0x11, 0x22]).1
      (by decide) (by decide) (by decide) (by decide) (by decide) (by decide)
      (fun _ => rfl) (fun _ => rfl)
    exact ⟨m1, h1, h2.trans (by decide), h4.trans (by decide), h5.trans (by decide)⟩
  · obtain ⟨m1, h1, h2, -, h4, h5, -⟩ := flushOne_packet 4 quietEnv 1
      (UART_StoreData 4 quietEnv (startedSys .UART_PAYLOAD_16) [0x1234]).1
      (by decide) (by decide) (by decide) (by decide) (by decide) (by decide)
      (fun _ => rfl) (fun _ => rfl)
    exact ⟨m1, h1, h2.trans (by decide), h4.trans (by decide), h5.trans (by decide)⟩

/-! ## Encoder round trip -/

/-- C4: for each payload width `w` and each record whose value is below
`2^(8w)` (the timestamp being a byte), decoding the `w + 1` bytes packed by the
flush encoder gives the record back; hence two such records with the same
packed bytes are equal. -/
theorem pack_decode_roundtrip (w : UART_PayloadSize) (r r2 : UART_TimestampedData)
    (hv : r.data < 2 ^ (8 * w.toNat)) (ht : r.timestamp < 256) :
    decodePacket w (packBytes w r) = r
    ∧ (packBytes w r).length = w.toNat + 1
    ∧ (r2.data < 2 ^ (8 * w.toNat) → r2.timestamp < 256 →
        packBytes w r = packBytes w r2 → r = r2) := by
  have key : ∀ q : UART_TimestampedData, q.data < 2 ^ (8 * w.toNat) → q.timestamp < 256 →
      decodePacket w (packBytes w q) = q := by
    intro q hq1 hq2
    obtain ⟨d, t⟩ := q
    cases w <;>
      simp only [UART_PayloadSize.toNat] at hq1 <;>
      norm_num at hq1 <;>
      simp only [packBytes, decodePacket, UART_PayloadSize.toNat, and_255,
        Nat.shiftRight_eq_div_pow, List.take, List.drop, List.foldl, List.headD,
        UART_TimestampedData.mk.injEq] <;>
      constructor <;> simp only [] at hq2 ⊢ <;> omega
  refine ⟨key r hv ht, ?_, ?_⟩
  · rw [packBytes_eq, packetOf_length]
  · intro hv2 ht2 heq
    rw [← key r hv ht, ← key r2 hv2 ht2, heq]

/-- Witness for C4: width 2, value 0x1234, timestamp 0x7A. -/
theorem pack_decode_roundtrip_witness :
    decodePacket .UART_PAYLOAD_16 [0x12, 0x34, 0x7A] = { data := 0x1234, timestamp := 0x7A } :=
  (pack_decode_roundtrip .UART_PAYLOAD_16 { data := 0x1234, timestamp := 0x7A }
    { data := 0, timestamp := 0 } (by decide) (by decide)).1

/-! ## Flushing the whole buffer -/

/-- C5: on an initialised system holding `k ≥ 1` records, with the gate
enabled, no inbound byte at any poll, TXE and TC always set and fuel above `k`,
`UART_FlushBuffer` returns 1, appends to the bytes on the wire exactly the
concatenation of the packets of the queued records in queue order
(`k * (w + 1)` bytes, nothing in between), and leaves the buffer empty with
head, the slots and the gate unchanged. -/
theorem flushBuffer_drains (N : Nat) (env : Env) (fuel : Nat) (m : Sys)
    (hN16 : N ≤ 65536) (hh : m.st.uartTxHead < N) (ht : m.st.uartTxTail < N)
    (hinit : m.st.selectedUART ≠ none)
    (hk : 1 ≤ usedSlots N m.st.uartTxHead m.st.uartTxTail)
    (hfuel : usedSlots N m.st.uartTxHead m.st.uartTxTail < fuel)
    (hgate : m.st.uartTransmitEnabled ≠ 0)
    (hrx : ∀ k, env.rxne k = none)
    (htxe : ∀ k, env.txe k = true) (htc : ∀ k, env.tc k = true) :
    ∃ m1 : Sys, UART_FlushBuffer N env fuel m = some (m1, 1)
      ∧ m1.hw.sent = m.hw.sent ++ (contents N m.st).flatMap (packetOf m.st.uartPayloadSize)
      ∧ m1.hw.sent.length = m.hw.sent.length
          + usedSlots N m.st.uartTxHead m.st.uartTxTail * (m.st.uartPayloadSize.toNat + 1)
      ∧ m1.st.uartTxTail = m1.st.uartTxHead
      ∧ contents N m1.st = []
      ∧ m1.st.uartTxHead = m.st.uartTxHead
      ∧ m1.st.uartTxBuffer = m.st.uartTxBuffer
      ∧ m1.st.uartTransmitEnabled = m.st.uartTransmitEnabled := by
  have hN : 0 < N := by omega
  have hne : m.st.uartTxHead ≠ m.st.uartTxTail := by
    intro h
    rw [usedSlots_eq N _ _ hh ht, h] at hk
    simp at hk
  obtain ⟨mj, t0, t1, t2, t3, -, -, -, -, t8, -, -, -, t12⟩ :=
    flushLoop_iterate N env hN hN16 htxe (usedSlots N m.st.uartTxHead m.st.uartTxTail) m
      hh ht (Nat.le_refl _) hgate (fun i _ b hb => by rw [hrx] at hb; cases hb)
  rw [tail_add_used N _ _ hh ht] at t2
  have hloop : flushLoop N env fuel m = some (mj, true) := by
    rw [show fuel = (fuel - usedSlots N m.st.uartTxHead m.st.uartTxTail)
          + usedSlots N m.st.uartTxHead m.st.uartTxTail by omega, t0]
    exact flushLoop_empty N env _ mj (by omega) (by rw [t1, t2])
  have hguard : (BUFFER_IS_EMPTY m.st || m.st.selectedUART == none) = false := by
    cases hsel : m.st.selectedUART with
    | none => exact absurd hsel hinit
    | some a => simp [BUFFER_IS_EMPTY, hne]
  have hsent : mj.hw.sent
      = m.hw.sent ++ (contents N m.st).flatMap (packetOf m.st.uartPayloadSize) := t12
  refine ⟨{ st := mj.st, hw := { mj.hw with tcPolls := mj.hw.tcPolls + 1 } }, ?_, hsent, ?_,
    by rw [t1, t2], ?_, t1, t3, t8 (fun i _ => hrx _)⟩
  · unfold UART_FlushBuffer
    simp only [hguard, Bool.false_eq_true, if_false, hloop,
      waitTC_ready env.tc fuel _ (by omega) (htc _)]
  · simp only [hsent, List.length_append, packets_length, contents_length]
  · simp only [contents, t1, t2, usedSlots, sub_self, Int.zero_emod, Int.toNat_zero, queueFrom,
      List.range_zero, List.map_nil]

/-- Witness for C5: capacity 4, width 1, the records 1, 2, 3 queued with
timestamp 0x7A. -/
theorem flushBuffer_drains_witness :
    ∃ m1 : Sys, UART_FlushBuffer 4 quietEnv 4 filledSys = some (m1, 1)
      ∧ m1.hw.sent = [1, 0x7A, 2, 0x7A, 3, 0x7A]
      ∧ m1.st.uartTxTail = m1.st.uartTxHead
      ∧ m1.st.uartTxHead = 3 := by
  obtain ⟨m1, h1, h2, -, h4, -, h6, -, -⟩ := flushBuffer_drains 4 quietEnv 4 filledSys
    (by decide) (by decide) (by decide) (by decide) (by decide) (by decide) (by decide)
    (fun _ => rfl) (fun _ => rfl) (fun _ => rfl)
  exact ⟨m1, h1, h2.trans (by decide), h4, h6.trans (by decide)⟩

/-! ## Before the start command -/

/-- C6: from a state with the gate off and the buffer empty (in particular the
freshly initialised state), for every sequence of `Store`, `FlushOne` and
`FlushBuffer` calls and every inbound byte stream without the start byte 0x53,
the run returns with every call returning 0, no byte is transmitted, and the
buffer is empty and the gate off at the end (hence, the statement holding for
every prefix of the sequence, after every call). -/
theorem nothing_before_start (N : Nat) (env : Env) (fuel : Nat) (calls : List DataCall)
    (m : Sys)
    (hrx : ∀ k b, env.rxne k = some b → b % 256 ≠ 0x53)
    (hgate : m.st.uartTransmitEnabled = 0) (he : m.st.uartTxHead = m.st.uartTxTail) :
    ∃ m1 : Sys, runCalls N env fuel calls m = some (m1, List.replicate calls.length 0)
      ∧ m1.hw.sent = m.hw.sent
      ∧ m1.st.uartTxHead = m1.st.uartTxTail
      ∧ m1.st.uartTransmitEnabled = 0 := by
  induction calls generalizing m with
  | nil => exact ⟨m, rfl, rfl, he, hgate⟩
  | cons c rest ih =>
    obtain ⟨m1, h1, g1, e1, s1⟩ := call_before_start N env fuel c m hrx hgate he
    obtain ⟨m2, h2, s2, e2, g2⟩ := ih m1 g1 e1
    refine ⟨m2, ?_, s2.trans s1, e2, g2⟩
    simp only [runCalls, h1, h2, List.length_cons, List.replicate_succ]

/-- Witness for C6: capacity 4, the freshly initialised state, the bytes 0x52 and
0x41 arriving, then `Store([1])`, `FlushOne`, `FlushBuffer`, `Store([2, 3])`. -/
theorem nothing_before_start_witness :
    ∃ m1 : Sys,
      runCalls 4
          { rxne := fun k => if k = 0 then some 0x52 else if k = 1 then some 0x41 else none,
            txe := fun _ => true, tc := fun _ => true, time := fun _ => 0x7A }
          1 [.store [1], .flushOne, .flushBuffer, .store [2, 3]]
          (initialSys 1 1 .UART_PAYLOAD_8) = some (m1, [0, 0, 0, 0])
      ∧ m1.hw.sent = []
      ∧ m1.st.uartTxHead = m1.st.uartTxTail
      ∧ m1.st.uartTransmitEnabled = 0 :=
  nothing_before_start 4
    { rxne := fun k => if k = 0 then some 0x52 else if k = 1 then some 0x41 else none,
      txe := fun _ => true, tc := fun _ => true, time := fun _ => 0x7A }
    1 [.store [1], .flushOne, .flushBuffer, .store [2, 3]] (initialSys 1 1 .UART_PAYLOAD_8)
    (by
      intro k b h
      simp only [] at h
      split_ifs at h <;> simp at h <;> subst h <;> decide)
    rfl rfl

/-! ## The command poll -/

/-- C7: `UART_ProcessCommand` in every state.  When no inbound byte waits it
returns 0 and changes no static variable and nothing on the wire.  Otherwise it
receives the byte and returns 1, never touching the slots; the byte 0x53 sets
the gate to 1 and keeps head and tail; the byte 0x52 sets the gate to 0 and
head = tail = 0, so the buffer is empty; every other byte changes no static
variable. -/
theorem processCommand_transition (env : Env) (m : Sys) :
    (env.rxne m.hw.rxPolls = none →
        (UART_ProcessCommand env m).2 = 0
        ∧ (UART_ProcessCommand env m).1.st = m.st
        ∧ (UART_ProcessCommand env m).1.hw.sent = m.hw.sent)
    ∧ (∀ b, env.rxne m.hw.rxPolls = some b →
        (UART_ProcessCommand env m).2 = 1
        ∧ (UART_ProcessCommand env m).1.hw.rxPolls = m.hw.rxPolls + 1
        ∧ (UART_ProcessCommand env m).1.hw.sent = m.hw.sent
        ∧ (UART_ProcessCommand env m).1.st.uartTxBuffer = m.st.uartTxBuffer
        ∧ (b % 256 = 0x53 →
            (UART_ProcessCommand env m).1.st.uartTransmitEnabled = 1
            ∧ (UART_ProcessCommand env m).1.st.uartTxHead = m.st.uartTxHead
            ∧ (UART_ProcessCommand env m).1.st.uartTxTail = m.st.uartTxTail)
        ∧ (b % 256 = 0x52 →
            (UART_ProcessCommand env m).1.st.uartTransmitEnabled = 0
            ∧ (UART_ProcessCommand env m).1.st.uartTxHead = 0
            ∧ (UART_ProcessCommand env m).1.st.uartTxTail = 0
            ∧ BUFFER_IS_EMPTY (UART_ProcessCommand env m).1.st = true)
        ∧ (b % 256 ≠ 0x53 → b % 256 ≠ 0x52 →
            (UART_ProcessCommand env m).1.st = m.st)) := by
  refine ⟨fun h => ?_, fun b h => ⟨?_, ?_, ?_, ?_, fun hb => ?_, fun hb => ?_, fun hS hR => ?_⟩⟩
  · rw [poll_none env m h]; exact ⟨rfl, rfl, rfl⟩
  · simp only [UART_ProcessCommand, h]; split_ifs <;> rfl
  · rw [poll_hw]
  · rw [poll_hw]
  · exact (poll_frame env m).1
  · rw [poll_start env m b h hb]; exact ⟨rfl, rfl, rfl⟩
  · rw [poll_reset env m b h hb]; exact ⟨rfl, rfl, rfl, rfl⟩
  · rw [poll_other env m b h hS hR]

/-- Witness for C7: the reset byte received while three records are queued. -/
theorem processCommand_transition_witness :
    (UART_ProcessCommand { quietEnv with rxne := fun _ => some 0x52 } filledSys).2 = 1
    ∧ (UART_ProcessCommand { quietEnv with rxne := fun _ => some 0x52 }
        filledSys).1.st.uartTransmitEnabled = 0
    ∧ (UART_ProcessCommand { quietEnv with rxne := fun _ => some 0x52 }
        filledSys).1.st.uartTxHead = 0
    ∧ (UART_ProcessCommand { quietEnv with rxne := fun _ => some 0x52 }
        filledSys).1.st.uartTxTail = 0
    ∧ (UART_ProcessCommand { quietEnv with rxne := fun _ => some 0x52 }
        filledSys).1.st.uartTxBuffer 0 = { data := 1, timestamp := 0x7A } :=
  have h := (processCommand_transition { quietEnv with rxne := fun _ => some 0x52 }
    filledSys).2 0x52 rfl
  have hR := h.2.2.2.2.2.1 (by decide)
  ⟨h.1, hR.1, hR.2.1, hR.2.2.1, (congrFun h.2.2.2.1 0).trans (by decide)⟩

/-! ## Where the data-path calls poll -/

/-- Counterexample for C8: capacity 4, the freshly initialised state (empty
buffer, gate off) with the start byte 0x53 waiting.  `UART_FlushOne` and
`UART_FlushBuffer` return 0 without reading RXNE: the state is returned as it
was, with the gate still 0 and no RXNE read made, whereas a poll at that point
would have set the gate to 1. -/
theorem flush_empty_no_poll_counterexample :
    startEnv.rxne (initialSys 1 1 .UART_PAYLOAD_8).hw.rxPolls = some 0x53
    ∧ (UART_ProcessCommand startEnv (initialSys 1 1 .UART_PAYLOAD_8)).1.st.uartTransmitEnabled = 1
    ∧ UART_FlushOne 4 startEnv 1 (initialSys 1 1 .UART_PAYLOAD_8)
        = some (initialSys 1 1 .UART_PAYLOAD_8, 0)
    ∧ UART_FlushBuffer 4 startEnv 1 (initialSys 1 1 .UART_PAYLOAD_8)
        = some (initialSys 1 1 .UART_PAYLOAD_8, 0)
    ∧ (initialSys 1 1 .UART_PAYLOAD_8).st.uartTransmitEnabled = 0
    ∧ (initialSys 1 1 .UART_PAYLOAD_8).hw.rxPolls = 0 :=
  ⟨rfl, rfl, rfl, rfl, rfl, rfl⟩

/-- C8 (amended): on an initialised system `UART_StoreData` polls once, right
after the initialised check and before the gate and capacity checks: the RXNE
read count grows by one, the gate after the call is the gate left by the poll,
and when that gate is 0 the call returns 0 in the state left by the poll.
`UART_FlushOne` and `UART_FlushBuffer` test the buffer first.  Entered with a
non-empty buffer they poll before the gate check: when the gate left by the poll
is 0 they return 0 in the state left by the poll, and whenever they return the
poll has been made (for `UART_FlushOne` exactly one, the gate after the call
being the gate left by it).  Entered with an empty buffer they return 0 with the
state as it was: no RXNE read, a waiting byte is not received and the gate is
as before. -/
theorem poll_position (N : Nat) (env : Env) (fuel : Nat) (m : Sys) (dataArray : List Nat)
    (hinit : m.st.selectedUART ≠ none) :
    ((UART_StoreData N env m dataArray).1.hw.rxPolls = m.hw.rxPolls + 1
      ∧ (UART_StoreData N env m dataArray).1.st.uartTransmitEnabled
          = (UART_ProcessCommand env m).1.st.uartTransmitEnabled
      ∧ ((UART_ProcessCommand env m).1.st.uartTransmitEnabled = 0 →
          UART_StoreData N env m dataArray = ((UART_ProcessCommand env m).1, 0)))
    ∧ (m.st.uartTxHead ≠ m.st.uartTxTail →
        ((UART_ProcessCommand env m).1.st.uartTransmitEnabled = 0 →
          UART_FlushOne N env fuel m = some ((UART_ProcessCommand env m).1, 0)
          ∧ UART_FlushBuffer N env (fuel + 1) m = some ((UART_ProcessCommand env m).1, 0))
        ∧ (∀ m1 r, UART_FlushOne N env fuel m = some (m1, r) →
            m1.hw.rxPolls = m.hw.rxPolls + 1
            ∧ m1.st.uartTransmitEnabled = (UART_ProcessCommand env m).1.st.uartTransmitEnabled)
        ∧ (∀ m1 r, UART_FlushBuffer N env fuel m = some (m1, r) →
            m.hw.rxPolls + 1 ≤ m1.hw.rxPolls))
    ∧ (m.st.uartTxHead = m.st.uartTxTail →
        UART_FlushOne N env fuel m = some (m, 0)
        ∧ UART_FlushBuffer N env fuel m = some (m, 0)) := by
  have ehw := poll_hw env m
  refine ⟨?_, fun hne => ?_, fun he => ?_⟩
  · unfold UART_StoreData
    rw [if_neg hinit]
    simp only []
    split_ifs with hg hroom
    · exact ⟨by rw [ehw], rfl, fun _ => rfl⟩
    · exact ⟨by rw [ehw], rfl, fun h => absurd h hg⟩
    · obtain ⟨-, f2, -, -, -, f6⟩ := storeLoop_frame N env dataArray (UART_ProcessCommand env m).1
      exact ⟨by rw [f6, ehw], f2, fun h => absurd h hg⟩
  · have hguard : (BUFFER_IS_EMPTY m.st || m.st.selectedUART == none) = false := by
      cases hsel : m.st.selectedUART with
      | none => exact absurd hsel hinit
      | some a => simp [BUFFER_IS_EMPTY, hne]
    refine ⟨fun hg => ⟨?_, ?_⟩, fun m1 r h => ?_, fun m1 r h => ?_⟩
    · unfold UART_FlushOne
      simp only [hguard, Bool.false_eq_true, if_false, hg, if_true]
    · unfold UART_FlushBuffer
      simp only [hguard, Bool.false_eq_true, if_false]
      unfold flushLoop
      simp only [BUFFER_IS_EMPTY, beq_iff_eq, hne, if_false, hg, if_true]
    · unfold UART_FlushOne at h
      simp only [hguard, Bool.false_eq_true, if_false] at h
      obtain ⟨t1, t2, -, -⟩ := transmitBytes_frame env
        (packBytes (UART_ProcessCommand env m).1.st.uartPayloadSize
          ((UART_ProcessCommand env m).1.st.uartTxBuffer
            (UART_ProcessCommand env m).1.st.uartTxTail))
        (UART_ProcessCommand env m).1
      split_ifs at h with hg ht
      · simp only [Option.some.injEq, Prod.mk.injEq] at h
        rw [← h.1]; exact ⟨by rw [ehw], rfl⟩
      · cases hw : waitTC env.tc fuel
          (transmitBytes env
            (packBytes (UART_ProcessCommand env m).1.st.uartPayloadSize
              ((UART_ProcessCommand env m).1.st.uartTxBuffer
                (UART_ProcessCommand env m).1.st.uartTxTail))
            (UART_ProcessCommand env m).1).1.hw.tcPolls with
        | none => rw [hw] at h; cases h
        | some k =>
          rw [hw] at h
          simp only [Option.some.injEq, Prod.mk.injEq] at h
          rw [← h.1]
          exact ⟨by simp only [t2, ehw], by simp only [t1]⟩
      · simp only [Option.some.injEq, Prod.mk.injEq] at h
        rw [← h.1]; exact ⟨by rw [t2, ehw], by rw [t1]⟩
    · unfold UART_FlushBuffer at h
      simp only [hguard, Bool.false_eq_true, if_false] at h
      cases hl : flushLoop N env fuel m with
      | none => rw [hl] at h; cases h
      | some p =>
        obtain ⟨m2, b⟩ := p
        have hp := (flushLoop_polls N env fuel m m2 b hl).2 hne
        rw [hl] at h
        cases b with
        | false =>
          simp only [Option.some.injEq, Prod.mk.injEq] at h
          rw [← h.1]; exact hp
        | true =>
          simp only [] at h
          cases hw : waitTC env.tc fuel m2.hw.tcPolls with
          | none => rw [hw] at h; cases h
          | some k =>
            rw [hw] at h
            simp only [Option.some.injEq, Prod.mk.injEq] at h
            rw [← h.1]; exact hp
  · constructor
    · simp [UART_FlushOne, BUFFER_IS_EMPTY, he]
    · simp [UART_FlushBuffer, BUFFER_IS_EMPTY, he]

/-- Witness for C8 (amended): capacity 4.  With three records queued and the
reset byte waiting, `UART_FlushOne` and `UART_FlushBuffer` return 0 in the state
left by the poll; with the buffer empty and the start byte waiting,
`UART_StoreData` makes the poll and ends with the gate at 1. -/
theorem poll_position_witness :
    (UART_FlushOne 4 resetEnv 1 filledSys = some ((UART_ProcessCommand resetEnv filledSys).1, 0)
      ∧ UART_FlushBuffer 4 resetEnv 2 filledSys
          = some ((UART_ProcessCommand resetEnv filledSys).1, 0))
    ∧ (UART_StoreData 4 startEnv (initialSys 1 1 .UART_PAYLOAD_8) [1]).1.hw.rxPolls = 1
    ∧ (UART_StoreData 4 startEnv (initialSys 1 1 .UART_PAYLOAD_8) [1]).1.st.uartTransmitEnabled
        = 1 :=
  ⟨(poll_position 4 resetEnv 1 filledSys [] (by decide)).2.1 (by decide) |>.1 (by decide),
   (poll_position 4 startEnv 1 (initialSys 1 1 .UART_PAYLOAD_8) [1] (by decide)).1.1,
   (poll_position 4 startEnv 1 (initialSys 1 1 .UART_PAYLOAD_8) [1] (by decide)).1.2.1⟩

/-! ## Reset during a flush -/

/-- C9: on an initialised system holding `k` records, with the gate enabled and
TXE always set, if the polls of the first `j < k` iterations of
`UART_FlushBuffer` receive no reset and the poll of iteration `j + 1` receives
the reset byte 0x52, then (with fuel above `j`) the call returns 0, exactly the
packets of the first `j` queued records have been transmitted, and afterwards
head = tail = 0 (the buffer is empty) and the gate is 0; the slots keep their
contents. -/
theorem flushBuffer_reset_aborts (N : Nat) (env : Env) (fuel : Nat) (m : Sys) (j b : Nat)
    (hN16 : N ≤ 65536) (hh : m.st.uartTxHead < N) (ht : m.st.uartTxTail < N)
    (hinit : m.st.selectedUART ≠ none)
    (hj : j < usedSlots N m.st.uartTxHead m.st.uartTxTail)
    (hfuel : j < fuel)
    (hgate : m.st.uartTransmitEnabled ≠ 0)
    (htxe : ∀ k, env.txe k = true)
    (hrx : ∀ i, i < j → noResetAt env (m.hw.rxPolls + i))
    (hR : env.rxne (m.hw.rxPolls + j) = some b) (hb : b % 256 = 0x52) :
    ∃ m1 : Sys, UART_FlushBuffer N env fuel m = some (m1, 0)
      ∧ m1.hw.sent = m.hw.sent
          ++ ((contents N m.st).take j).flatMap (packetOf m.st.uartPayloadSize)
      ∧ m1.hw.sent.length = m.hw.sent.length + j * (m.st.uartPayloadSize.toNat + 1)
      ∧ m1.st.uartTxHead = 0
      ∧ m1.st.uartTxTail = 0
      ∧ BUFFER_IS_EMPTY m1.st = true
      ∧ m1.st.uartTransmitEnabled = 0
      ∧ m1.st.uartTxBuffer = m.st.uartTxBuffer := by
  have hN : 0 < N := by omega
  have hused : usedSlots N m.st.uartTxHead m.st.uartTxTail < N := by
    rw [usedSlots_eq N _ _ hh ht]; split_ifs <;> omega
  have hne : m.st.uartTxHead ≠ m.st.uartTxTail := by
    intro h
    rw [usedSlots_eq N _ _ hh ht, h] at hj
    simp at hj
  obtain ⟨mj, t0, t1, t2, t3, -, -, -, -, -, t9, -, -, t12⟩ :=
    flushLoop_iterate N env hN hN16 htxe j m hh ht (Nat.le_of_lt hj) hgate hrx
  have hnej : mj.st.uartTxHead ≠ mj.st.uartTxTail := by
    rw [t1, t2]
    have := slot_ne N m.st.uartTxTail j _ hj hused
    rw [tail_add_used N _ _ hh ht] at this
    exact fun h => this h.symm
  have hRj : env.rxne mj.hw.rxPolls = some b := by rw [t9]; exact hR
  have hloop : flushLoop N env fuel m = some ((UART_ProcessCommand env mj).1, false) := by
    rw [show fuel = (fuel - j - 1 + 1) + j by omega, t0]
    exact flushLoop_reset N env _ mj b hnej hRj hb
  have hguard : (BUFFER_IS_EMPTY m.st || m.st.selectedUART == none) = false := by
    cases hsel : m.st.selectedUART with
    | none => exact absurd hsel hinit
    | some a => simp [BUFFER_IS_EMPTY, hne]
  have hsent : (UART_ProcessCommand env mj).1.hw.sent = m.hw.sent
      ++ ((contents N m.st).take j).flatMap (packetOf m.st.uartPayloadSize) := by
    rw [poll_hw, contents, queueFrom_take N _ _ _ _ (Nat.le_of_lt hj)]
    exact t12
  refine ⟨(UART_ProcessCommand env mj).1, ?_, hsent, ?_, ?_, ?_, ?_, ?_, ?_⟩
  · unfold UART_FlushBuffer
    simp only [hguard, Bool.false_eq_true, if_false, hloop]
  · rw [hsent, List.length_append, packets_length, List.length_take, contents_length,
      Nat.min_eq_left (Nat.le_of_lt hj)]
  · rw [poll_reset env mj b hRj hb]
  · rw [poll_reset env mj b hRj hb]
  · rw [poll_reset env mj b hRj hb]; rfl
  · rw [poll_reset env mj b hRj hb]
  · rw [(poll_frame env mj).1, t3]

/-- Witness for C9: capacity 4, width 1, the records 1, 2, 3 queued (`k = 3`),
no byte at the first poll and the reset byte at the second (`j = 1`): one
packet goes out and the call returns 0 with the buffer empty and the gate 0. -/
theorem flushBuffer_reset_aborts_witness :
    ∃ m1 : Sys,
      UART_FlushBuffer 4
          { quietEnv with rxne := fun k => if k = 2 then some 0x52 else none } 4 filledSys
        = some (m1, 0)
      ∧ m1.hw.sent = [1, 0x7A]
      ∧ m1.st.uartTxHead = 0 ∧ m1.st.uartTxTail = 0
      ∧ m1.st.uartTransmitEnabled = 0 := by
  obtain ⟨m1, h1, h2, -, h4, h5, -, h7, -⟩ := flushBuffer_reset_aborts 4
    { quietEnv with rxne := fun k => if k = 2 then some 0x52 else none } 4 filledSys 1 0x52
    (by decide) (by decide) (by decide) (by decide) (by decide) (by decide) (by decide)
    (fun _ => rfl)
    (by
      intro i hi c hc
      have hi0 : i = 0 := by omega
      subst hi0
      have hq : ({ quietEnv with rxne := fun k => if k = 2 then some 0x52 else none } : Env).rxne
          (filledSys.hw.rxPolls + 0) = none := by decide
      rw [hq] at hc
      cases hc)
    (by decide) (by decide)
  exact ⟨m1, h1, h2.trans (by decide), h4, h5, h7⟩

/-! ## Store: admission -/

/-- C10: on an initialised system with indices in range, `UART_StoreData` on
`n` values returns 1 if and only if the gate is enabled after the command poll
and `n ≤ N - 1 - ((head - tail) mod N)`, and returns 0 otherwise.  In
particular, with the gate enabled after the poll, storing `N - 1` values into
an empty buffer returns 1 and makes the buffer full; and on a full buffer every
store of at least one value returns 0, the queue (head, tail and slots) being
as before whenever the gate is still enabled after the poll of that call. -/
theorem store_iff_room (N : Nat) (env : Env) (m : Sys) (dataArray : List Nat)
    (hN16 : N ≤ 65536) (hh : m.st.uartTxHead < N) (ht : m.st.uartTxTail < N)
    (hinit : m.st.selectedUART ≠ none) :
    ((UART_StoreData N env m dataArray).2 = 1 ↔
        ((UART_ProcessCommand env m).1.st.uartTransmitEnabled ≠ 0
          ∧ dataArray.length ≤ N - 1 - usedSlots N m.st.uartTxHead m.st.uartTxTail))
    ∧ ((UART_StoreData N env m dataArray).2 = 1 ∨ (UART_StoreData N env m dataArray).2 = 0)
    ∧ (m.st.uartTxHead = m.st.uartTxTail → dataArray.length = N - 1 →
        (UART_ProcessCommand env m).1.st.uartTransmitEnabled ≠ 0 →
          (UART_StoreData N env m dataArray).2 = 1
          ∧ BUFFER_IS_FULL N (UART_StoreData N env m dataArray).1.st = true
          ∧ contents N (UART_StoreData N env m dataArray).1.st
              = stampedRecords m.st.uartPayloadSize env.time m.hw.timeReads dataArray)
    ∧ (BUFFER_IS_FULL N m.st = true → 1 ≤ dataArray.length →
        (UART_StoreData N env m dataArray).2 = 0
        ∧ ((UART_ProcessCommand env m).1.st.uartTransmitEnabled ≠ 0 →
            (UART_StoreData N env m dataArray).1.st.uartTxHead = m.st.uartTxHead
            ∧ (UART_StoreData N env m dataArray).1.st.uartTxTail = m.st.uartTxTail
            ∧ (UART_StoreData N env m dataArray).1.st.uartTxBuffer = m.st.uartTxBuffer
            ∧ contents N (UART_StoreData N env m dataArray).1.st = contents N m.st)) := by
  have hN : 0 < N := by omega
  have hiff : (UART_StoreData N env m dataArray).2 = 1 ↔
      ((UART_ProcessCommand env m).1.st.uartTransmitEnabled ≠ 0
        ∧ dataArray.length ≤ N - 1 - usedSlots N m.st.uartTxHead m.st.uartTxTail) := by
    constructor
    · intro hok
      obtain ⟨-, hgate, hroom, -⟩ := (store_returns_one N env m dataArray).1 hok
      obtain ⟨e1, e2⟩ := poll_gate_on env m hgate
      rw [e1, e2, freeSlots_eq N _ _ hh ht hN16] at hroom
      exact ⟨hgate, hroom⟩
    · rintro ⟨hgate, hroom⟩
      obtain ⟨e1, e2⟩ := poll_gate_on env m hgate
      unfold UART_StoreData
      rw [if_neg hinit]
      simp only []
      rw [if_neg hgate, e1, e2, freeSlots_eq N _ _ hh ht hN16, if_neg (by omega)]
  have hzero : (UART_StoreData N env m dataArray).2 = 1
      ∨ (UART_StoreData N env m dataArray).2 = 0 := by
    unfold UART_StoreData
    simp only []
    split_ifs <;> simp
  refine ⟨hiff, hzero, fun he hlen hgate => ?_, fun hfull hlen => ?_⟩
  · have hu0 : usedSlots N m.st.uartTxHead m.st.uartTxTail = 0 := by
      rw [usedSlots_eq N _ _ hh ht, he]; simp
    have hok : (UART_StoreData N env m dataArray).2 = 1 := hiff.2 ⟨hgate, by omega⟩
    obtain ⟨-, -, -, hS⟩ := (store_returns_one N env m dataArray).1 hok
    obtain ⟨e1, e2⟩ := poll_gate_on env m hgate
    obtain ⟨e3, -, -, e4⟩ := poll_frame env m
    have ehw := poll_hw env m
    obtain ⟨c1, c2, c3⟩ := storeLoop_contents N env hN16 dataArray (UART_ProcessCommand env m).1
      (by rw [e1]; exact hh) (by rw [e2]; exact ht) (by rw [e1, e2]; omega)
    obtain ⟨ft, -⟩ := storeLoop_frame N env dataArray (UART_ProcessCommand env m).1
    refine ⟨hok, ?_, ?_⟩
    · rw [hS]
      simp only [BUFFER_IS_FULL, BUFFER_NEXT, beq_iff_eq, ft]
      rw [full_iff_used N _ _ c1 (by rw [e2]; exact ht), c2, e1, e2, hu0]
      omega
    · rw [hS, c3, e4, ehw]
      have hnil : contents N (UART_ProcessCommand env m).1.st = [] := by
        simp only [contents, e1, e2, hu0, queueFrom, List.range_zero, List.map_nil]
      rw [hnil, List.nil_append]
  · have hu : usedSlots N m.st.uartTxHead m.st.uartTxTail = N - 1 := by
      rw [← full_iff_used N _ _ hh ht]
      simpa [BUFFER_IS_FULL, BUFFER_NEXT] using hfull
    have hret : (UART_StoreData N env m dataArray).2 = 0 := by
      rcases hzero with h1 | h0
      · have := (hiff.1 h1).2
        omega
      · exact h0
    refine ⟨hret, fun hgate => ?_⟩
    have h := rejected_store_frame N env m dataArray hinit hgate
      (by rw [freeSlots_eq N _ _ hh ht hN16]; omega)
    exact h

/-- Witness for C10: capacity 4, `Store([1,2,3])` on the started empty buffer
returns 1 and fills it; `Store([4])` then returns 0 and the queue still holds
1, 2, 3. -/
theorem store_iff_room_witness :
    (UART_StoreData 4 quietEnv (startedSys .UART_PAYLOAD_8) [1, 2, 3]).2 = 1
    ∧ BUFFER_IS_FULL 4 filledSys.st = true
    ∧ (UART_StoreData 4 quietEnv filledSys [4]).2 = 0
    ∧ contents 4 (UART_StoreData 4 quietEnv filledSys [4]).1.st
        = [{ data := 1, timestamp := 0x7A }, { data := 2, timestamp := 0x7A },
           { data := 3, timestamp := 0x7A }] :=
  have h1 := (store_iff_room 4 quietEnv (startedSys .UART_PAYLOAD_8) [1, 2, 3]
    (by decide) (by decide) (by decide) (by decide)).2.2.1 (by decide) (by decide) (by decide)
  have h2 := (store_iff_room 4 quietEnv filledSys [4]
    (by decide) (by decide) (by decide) (by decide)).2.2.2 (by decide) (by decide)
  ⟨h1.1, h1.2.1, h2.1, (h2.2 (by decide)).2.2.2.trans (by decide)⟩

/-! ## Calls before initialisation -/

/-- C11: while no UART is selected (`selectedUART` is `NULL`), each of
`UART_StoreData`, `UART_FlushOne` and `UART_FlushBuffer` returns 0 and gives back
the state it was called in, interaction record included: no RXNE, TXE or TC
read, no byte received or sent, and head, tail, gate and every slot as before.
The same holds for every sequence of such calls. -/
theorem uninitialised_noop (N : Nat) (env : Env) (fuel : Nat) (m : Sys) (dataArray : List Nat)
    (calls : List DataCall) (hnull : m.st.selectedUART = none) :
    UART_StoreData N env m dataArray = (m, 0)
    ∧ UART_FlushOne N env fuel m = some (m, 0)
    ∧ UART_FlushBuffer N env fuel m = some (m, 0)
    ∧ runCalls N env fuel calls m = some (m, List.replicate calls.length 0) := by
  have h1 : ∀ d, UART_StoreData N env m d = (m, 0) := by
    intro d; simp [UART_StoreData, hnull]
  have h2 : UART_FlushOne N env fuel m = some (m, 0) := by
    simp [UART_FlushOne, hnull]
  have h3 : UART_FlushBuffer N env fuel m = some (m, 0) := by
    simp [UART_FlushBuffer, hnull]
  refine ⟨h1 dataArray, h2, h3, ?_⟩
  induction calls with
  | nil => rfl
  | cons c rest ih =>
    have hc : c.run N env fuel m = some (m, 0) := by
      cases c with
      | store d => simp [DataCall.run, h1 d]
      | flushOne => exact h2
      | flushBuffer => exact h3
    simp only [runCalls, hc, ih, List.length_cons, List.replicate_succ]

/-- Witness for C11: capacity 4, the state at program start, with the start byte
waiting and the transport ready. -/
theorem uninitialised_noop_witness :
    bootSys.st.selectedUART = none
    ∧ (UART_StoreData 4 startEnv bootSys [1, 2]).2 = 0
    ∧ (UART_StoreData 4 startEnv bootSys [1, 2]).1.hw = bootSys.hw
    ∧ (UART_StoreData 4 startEnv bootSys [1, 2]).1.st.uartTransmitEnabled = 0
    ∧ UART_FlushOne 4 startEnv 1 bootSys = some (bootSys, 0)
    ∧ UART_FlushBuffer 4 startEnv 1 bootSys = some (bootSys, 0) :=
  have h := uninitialised_noop 4 startEnv 1 bootSys [1, 2] [] rfl
  ⟨rfl, congrArg Prod.snd h.1, congrArg (fun p => p.1.hw) h.1,
   congrArg (fun p => p.1.st.uartTransmitEnabled) h.1, h.2.1, h.2.2.1⟩

/-! ## Free-slot accounting -/

/-- C12: for a capacity `N` that is an `int` constant and indices
`head, tail < N`, the free-slot value computed by `UART_StoreData` satisfies
`freeSlots + usedSlots = N - 1` with `usedSlots = (head - tail) mod N`; in both
branches the `int` expression converted to `size_t` is the non-negative value of
`freeSlots` (no underflow); `freeSlots` is 0 exactly when the buffer is full and
`N - 1` exactly when it is empty. -/
theorem freeSlots_accounting (N head tail : Nat) (hN : N ≤ 2147483647)
    (hh : head < N) (ht : tail < N) :
    freeSlots N head tail + usedSlots N head tail = N - 1
    ∧ (head ≥ tail → (freeSlots N head tail : Int) = (N : Int) - ((head : Int) - tail) - 1)
    ∧ (head < tail → (freeSlots N head tail : Int) = (tail : Int) - head - 1)
    ∧ (freeSlots N head tail = 0 ↔ BUFFER_NEXT N head = tail)
    ∧ (freeSlots N head tail = N - 1 ↔ head = tail) := by
  have hu := usedSlots_eq N head tail hh ht
  have hfull := full_iff_used N head tail hh ht
  have hf : freeSlots N head tail = if head ≥ tail then N - (head - tail) - 1
      else tail - head - 1 := by
    unfold freeSlots
    split_ifs <;> omega
  refine ⟨?_, ?_, ?_, ?_, ?_⟩
  · rw [hf, hu]; split_ifs <;> omega
  · intro h; rw [hf, if_pos h]; omega
  · intro h; rw [hf, if_neg (by omega)]; omega
  · unfold BUFFER_NEXT
    rw [hfull, hf, hu]; split_ifs <;> omega
  · rw [hf]; split_ifs <;> omega

/-- Witness for C12: capacity 4 with head 1 and tail 3 (wrapped, two records). -/
theorem freeSlots_accounting_witness :
    freeSlots 4 1 3 + usedSlots 4 1 3 = 3 ∧ freeSlots 4 1 3 = 1 ∧ usedSlots 4 1 3 = 2 :=
  ⟨(freeSlots_accounting 4 1 3 (by decide) (by decide) (by decide)).1, by decide, by decide⟩

/-! ## No push when full, no pop when empty -/

/-- C13: from a state with indices in range, in every execution of
`UART_StoreData` that reaches the loop (returns 1), for every value `v` of the
batch, the state in which `v` is written (the loop run on the values before `v`)
has a buffer that is not full; an execution that does not return 1 writes no
slot.  In every execution of `UART_FlushOne` and `UART_FlushBuffer`, whatever
the polls receive, every state in which the record at tail is read has a
non-empty buffer. -/
theorem no_push_full_no_pop_empty (N : Nat) (env : Env) (fuel : Nat) (m : Sys)
    (dataArray : List Nat)
    (hN16 : N ≤ 65536) (hh : m.st.uartTxHead < N) (ht : m.st.uartTxTail < N) :
    (∀ pre v post, dataArray = pre ++ v :: post →
        (UART_StoreData N env m dataArray).2 = 1 →
          (UART_StoreData N env m dataArray).1
              = storeLoop N env (v :: post) (storeLoop N env pre (UART_ProcessCommand env m).1)
          ∧ BUFFER_IS_FULL N (storeLoop N env pre (UART_ProcessCommand env m).1).st = false)
    ∧ ((UART_StoreData N env m dataArray).2 ≠ 1 →
        (UART_StoreData N env m dataArray).1.st.uartTxBuffer = m.st.uartTxBuffer)
    ∧ (∀ s ∈ flushOneReads env m, BUFFER_IS_EMPTY s.st = false)
    ∧ (∀ s ∈ flushBufferReads N env fuel m, BUFFER_IS_EMPTY s.st = false) := by
  refine ⟨fun pre v post hsplit hok => ?_, fun hnot => ?_, fun s hs => ?_, fun s hs => ?_⟩
  · obtain ⟨-, hgate, hroom, hS⟩ := (store_returns_one N env m dataArray).1 hok
    obtain ⟨e1, e2⟩ := poll_gate_on env m hgate
    rw [e1, e2, freeSlots_eq N _ _ hh ht hN16, hsplit] at hroom
    simp only [List.length_append, List.length_cons] at hroom
    obtain ⟨c1, c2, -⟩ := storeLoop_contents N env hN16 pre (UART_ProcessCommand env m).1
      (by rw [e1]; exact hh) (by rw [e2]; exact ht) (by rw [e1, e2]; omega)
    obtain ⟨ft, -⟩ := storeLoop_frame N env pre (UART_ProcessCommand env m).1
    constructor
    · rw [hS, hsplit, storeLoop_append]
    · have hnf : ¬ ((storeLoop N env pre (UART_ProcessCommand env m).1).st.uartTxHead + 1) % N
          = m.st.uartTxTail := by
        rw [full_iff_used N _ _ c1 ht, ← e2, c2, e1, e2]
        omega
      simpa [BUFFER_IS_FULL, BUFFER_NEXT, ft, e2] using hnf
  · have hb := (poll_frame env m).1
    unfold UART_StoreData at hnot ⊢
    simp only [] at hnot ⊢
    split_ifs at hnot ⊢ with h1 h2 h3
    · rfl
    · exact hb
    · exact hb
    · exact absurd rfl hnot
  · unfold flushOneReads at hs
    simp only [] at hs
    split_ifs at hs with hguard hg
    · simp at hs
    · simp at hs
    · rw [List.mem_singleton.1 hs]
      have hg2 : BUFFER_IS_EMPTY m.st = false ∧ ¬m.st.selectedUART = none := by
        simpa using hguard
      exact poll_keeps_nonempty env m hg2.1 hg
  · unfold flushBufferReads at hs
    split_ifs at hs with hguard
    · simp at hs
    · exact flushLoopReads_nonempty N env fuel m s hs

/-- Witness for C13: capacity 4, `Store([1,2,3])` on the started empty buffer;
when 3 is written two records are queued and the buffer is not full. -/
theorem no_push_full_no_pop_empty_witness :
    (UART_StoreData 4 quietEnv (startedSys .UART_PAYLOAD_8) [1, 2, 3]).2 = 1
    ∧ BUFFER_IS_FULL 4
        (storeLoop 4 quietEnv [1, 2] (UART_ProcessCommand quietEnv
          (startedSys .UART_PAYLOAD_8)).1).st = false :=
  ⟨by decide,
   ((no_push_full_no_pop_empty 4 quietEnv 1 (startedSys .UART_PAYLOAD_8) [1, 2, 3]
      (by decide) (by decide) (by decide)).1 [1, 2] 3 [] rfl (by decide)).2⟩

/-! ## Send timeout -/

/-- C14: in a call of `UART_FlushOne` that reaches the transmit loop
(initialised, buffer non-empty, gate enabled after the poll), if the waits for
the first `j` bytes of the packet end with TXE set and the wait for byte `j`
(`0 ≤ j ≤ w`) runs out, then the call returns 0, exactly the first `j` bytes of
the packet have been added to the wire and none after, and head, tail and the
slots are as before the call: the record is still the front of the queue. -/
theorem flushOne_timeout (N : Nat) (env : Env) (fuel : Nat) (m : Sys) (j : Nat)
    (hinit : m.st.selectedUART ≠ none)
    (hne : m.st.uartTxHead ≠ m.st.uartTxTail)
    (hgate : (UART_ProcessCommand env m).1.st.uartTransmitEnabled ≠ 0)
    (hj : j ≤ m.st.uartPayloadSize.toNat)
    (hpre : (transmitBytes env
        ((packBytes m.st.uartPayloadSize (m.st.uartTxBuffer m.st.uartTxTail)).take j)
        (UART_ProcessCommand env m).1).2 = true)
    (hout : (waitTXE env.txe 5000 (transmitBytes env
        ((packBytes m.st.uartPayloadSize (m.st.uartTxBuffer m.st.uartTxTail)).take j)
        (UART_ProcessCommand env m).1).1.hw.txePolls).1 = false) :
    ∃ m1 : Sys, UART_FlushOne N env fuel m = some (m1, 0)
      ∧ m1.hw.sent = m.hw.sent
          ++ (packetOf m.st.uartPayloadSize (m.st.uartTxBuffer m.st.uartTxTail)).take j
      ∧ m1.hw.sent.length = m.hw.sent.length + j
      ∧ m1.st.uartTxTail = m.st.uartTxTail
      ∧ m1.st.uartTxHead = m.st.uartTxHead
      ∧ m1.st.uartTxBuffer = m.st.uartTxBuffer
      ∧ contents N m1.st = contents N m.st := by
  obtain ⟨e1, e2⟩ := poll_gate_on env m hgate
  obtain ⟨e3, -, -, e4⟩ := poll_frame env m
  have ehw := poll_hw env m
  have hlen : j < (packBytes m.st.uartPayloadSize (m.st.uartTxBuffer m.st.uartTxTail)).length := by
    rw [packBytes_eq, packetOf_length]; omega
  obtain ⟨hfail, hsent⟩ := transmitBytes_timeout env _ j (UART_ProcessCommand env m).1 hlen hpre hout
  obtain ⟨hst, -, -, -⟩ := transmitBytes_frame env
    (packBytes m.st.uartPayloadSize (m.st.uartTxBuffer m.st.uartTxTail))
    (UART_ProcessCommand env m).1
  have hguard : (BUFFER_IS_EMPTY m.st || m.st.selectedUART == none) = false := by
    cases hsel : m.st.selectedUART with
    | none => exact absurd hsel hinit
    | some a => simp [BUFFER_IS_EMPTY, hne]
  refine ⟨(transmitBytes env
      (packBytes m.st.uartPayloadSize (m.st.uartTxBuffer m.st.uartTxTail))
      (UART_ProcessCommand env m).1).1, ?_, ?_, ?_, ?_, ?_, ?_, ?_⟩
  · unfold UART_FlushOne
    simp only [hguard, Bool.false_eq_true, if_false, if_neg hgate, e2, e3, e4, hfail]
  · rw [hsent, ehw, packBytes_eq]
  · rw [hsent, ehw, List.length_append, List.length_take, Nat.min_eq_left (Nat.le_of_lt hlen)]
  · rw [hst, e2]
  · rw [hst, e1]
  · rw [hst, e3]
  · rw [hst]; simp only [contents, e1, e2, e3]

/-- Witness for C14: capacity 4, width 1, the record 0x11 queued with timestamp
0x7A; TXE is set for byte 0 and then stays clear (`j = 1`): the call returns 0
with only the byte 0x11 sent and tail still 0. -/
theorem flushOne_timeout_witness :
    ∃ m1 : Sys, UART_FlushOne 4 stallEnv 1 oneSys = some (m1, 0)
      ∧ m1.hw.sent = [0x11]
      ∧ m1.st.uartTxTail = 0
      ∧ m1.st.uartTxHead = 1 := by
  obtain ⟨m1, h1, h2, -, h4, h5, -, -⟩ := flushOne_timeout 4 stallEnv 1 oneSys 1
    (by decide) (by decide) (by decide) (by decide) (by decide)
    (congrArg Prod.fst (waitTXE_never stallEnv.txe 5000 1 (fun i _ => by
      show (1 + i == 0) = false
      simp)))
  exact ⟨m1, h1, h2.trans (by decide), h4.trans (by decide), h5.trans (by decide)⟩

/-! ## One flush of the buffer and repeated flushes of one packet -/

/-- C15: on an initialised system holding `k ≥ 1` records with indices in
range, the gate enabled, no inbound byte, TXE and TC always set and fuel above
`k`, one `UART_FlushBuffer` call returns 1 and `k` successive `UART_FlushOne`
calls return 1 each, and both end with the same bytes on the wire and the same
head, tail, gate and slots. -/
theorem flushBuffer_as_flushOnes (N : Nat) (env : Env) (fuel : Nat) (m : Sys)
    (hN16 : N ≤ 65536) (hh : m.st.uartTxHead < N) (ht : m.st.uartTxTail < N)
    (hinit : m.st.selectedUART ≠ none)
    (hk : 1 ≤ usedSlots N m.st.uartTxHead m.st.uartTxTail)
    (hfuel : usedSlots N m.st.uartTxHead m.st.uartTxTail < fuel)
    (hgate : m.st.uartTransmitEnabled ≠ 0)
    (hrx : ∀ k, env.rxne k = none)
    (htxe : ∀ k, env.txe k = true) (htc : ∀ k, env.tc k = true) :
    ∃ mB mO : Sys,
      UART_FlushBuffer N env fuel m = some (mB, 1)
      ∧ runCalls N env fuel
          (List.replicate (usedSlots N m.st.uartTxHead m.st.uartTxTail) DataCall.flushOne) m
          = some (mO, List.replicate (usedSlots N m.st.uartTxHead m.st.uartTxTail) 1)
      ∧ mB.hw.sent = mO.hw.sent
      ∧ mB.st.uartTxHead = mO.st.uartTxHead
      ∧ mB.st.uartTxTail = mO.st.uartTxTail
      ∧ mB.st.uartTransmitEnabled = mO.st.uartTransmitEnabled
      ∧ mB.st.uartTxBuffer = mO.st.uartTxBuffer := by
  have hN : 0 < N := by omega
  obtain ⟨mB, b0, b1, b2, b3, -, -, b6, b7⟩ :=
    flushBuffer_quiet N env fuel m hN16 hh ht hinit hk hfuel hgate hrx htxe htc
  obtain ⟨mO, o0, o1, o2, o3, -, -, o6, o7⟩ :=
    flushOne_iterate N env fuel hN hN16 (by omega) hrx htxe htc
      (usedSlots N m.st.uartTxHead m.st.uartTxTail) m hh ht hinit (Nat.le_refl _) hgate
  rw [tail_add_used N _ _ hh ht] at o2
  refine ⟨mB, mO, b0, o0, ?_, b1.trans o1.symm, b2.trans o2.symm, b6.trans o6.symm,
    b3.trans o3.symm⟩
  rw [b7, o7]; rfl

/-- Witness for C15: capacity 4, width 1, the records 1, 2, 3 queued. -/
theorem flushBuffer_as_flushOnes_witness :
    ∃ mB mO : Sys,
      UART_FlushBuffer 4 quietEnv 4 filledSys = some (mB, 1)
      ∧ runCalls 4 quietEnv 4 [.flushOne, .flushOne, .flushOne] filledSys = some (mO, [1, 1, 1])
      ∧ mB.hw.sent = mO.hw.sent
      ∧ mB.st.uartTxTail = mO.st.uartTxTail := by
  obtain ⟨mB, mO, h0, h1, h2, -, h4, -, -⟩ := flushBuffer_as_flushOnes 4 quietEnv 4 filledSys
    (by decide) (by decide) (by decide) (by decide) (by decide) (by decide) (by decide)
    (fun _ => rfl) (fun _ => rfl) (fun _ => rfl)
  exact ⟨mB, mO, h0, h1, h2, h4⟩

/-! ## Index ownership -/

/-- C16: in a call of `UART_StoreData` whose poll receives no reset, tail is
unchanged.  In a call of `UART_FlushOne` whose poll receives no reset, and in a
call of `UART_FlushBuffer` none of whose polls receives a reset, head is
unchanged; the flush functions never change a slot.  When the poll of a store
on an initialised system receives the reset byte, head and tail are both set
to 0.  The flush functions do return when the indices are in range, TC is always
set and the fuel is above the number of queued records. -/
theorem index_ownership (N : Nat) (env : Env) (fuel : Nat) (m : Sys) (dataArray : List Nat) :
    (noResetAt env m.hw.rxPolls →
        (UART_StoreData N env m dataArray).1.st.uartTxTail = m.st.uartTxTail)
    ∧ (∀ m1 r, UART_FlushOne N env fuel m = some (m1, r) →
        m1.st.uartTxBuffer = m.st.uartTxBuffer
        ∧ (noResetAt env m.hw.rxPolls → m1.st.uartTxHead = m.st.uartTxHead))
    ∧ (∀ m1 r, UART_FlushBuffer N env fuel m = some (m1, r) →
        m1.st.uartTxBuffer = m.st.uartTxBuffer
        ∧ ((∀ k, m.hw.rxPolls ≤ k → noResetAt env k) → m1.st.uartTxHead = m.st.uartTxHead))
    ∧ (∀ b, m.st.selectedUART ≠ none → env.rxne m.hw.rxPolls = some b → b % 256 = 0x52 →
        (UART_StoreData N env m dataArray).1.st.uartTxHead = 0
        ∧ (UART_StoreData N env m dataArray).1.st.uartTxTail = 0)
    ∧ (N ≤ 65536 → m.st.uartTxHead < N → m.st.uartTxTail < N →
        usedSlots N m.st.uartTxHead m.st.uartTxTail < fuel → (∀ k, env.tc k = true) →
          (∃ res, UART_FlushOne N env fuel m = some res)
          ∧ (∃ res, UART_FlushBuffer N env fuel m = some res)) := by
  refine ⟨fun hnr => ?_, fun m1 r h => ?_, fun m1 r h => ?_, fun b hinit hrx hb => ?_,
    fun hN16 hh ht hfuel htc => flush_returns N env hN16 fuel m hh ht hfuel htc⟩
  · obtain ⟨-, e2, -⟩ := poll_no_reset env m hnr
    obtain ⟨ft, -⟩ := storeLoop_frame N env dataArray (UART_ProcessCommand env m).1
    unfold UART_StoreData
    simp only []
    split_ifs
    · rfl
    · exact e2
    · exact e2
    · exact ft.trans e2
  · have key := flushOne_invariant N env
      (fun a => a.st.uartTxBuffer = m.st.uartTxBuffer)
      (fun a b hst _ ha => by dsimp only at ha ⊢; rw [← hst]; exact ha)
      (fun a ha => (poll_frame env a).1.trans ha)
      (fun a ha _ _ => ha) fuel m m1 r h rfl
    refine ⟨key, fun hnr => ?_⟩
    obtain ⟨e1, -, -⟩ := poll_no_reset env m hnr
    obtain ⟨f1, -, -, -⟩ := transmitBytes_frame env
      (packBytes (UART_ProcessCommand env m).1.st.uartPayloadSize
        ((UART_ProcessCommand env m).1.st.uartTxBuffer
          (UART_ProcessCommand env m).1.st.uartTxTail))
      (UART_ProcessCommand env m).1
    unfold UART_FlushOne at h
    simp only [] at h
    split_ifs at h with hguard hg hok
    · simp only [Option.some.injEq, Prod.mk.injEq] at h
      rw [← h.1]
    · simp only [Option.some.injEq, Prod.mk.injEq] at h
      rw [← h.1]; exact e1
    · cases hw : waitTC env.tc fuel
          (transmitBytes env
            (packBytes (UART_ProcessCommand env m).1.st.uartPayloadSize
              ((UART_ProcessCommand env m).1.st.uartTxBuffer
                (UART_ProcessCommand env m).1.st.uartTxTail))
            (UART_ProcessCommand env m).1).1.hw.tcPolls with
      | none => rw [hw] at h; cases h
      | some k =>
        rw [hw] at h
        simp only [Option.some.injEq, Prod.mk.injEq] at h
        rw [← h.1]
        simp only [f1]; exact e1
    · simp only [Option.some.injEq, Prod.mk.injEq] at h
      rw [← h.1, f1]; exact e1
  · have key := flushBuffer_invariant N env
      (fun a => m.hw.rxPolls ≤ a.hw.rxPolls ∧ a.st.uartTxBuffer = m.st.uartTxBuffer
        ∧ ((∀ k, m.hw.rxPolls ≤ k → noResetAt env k) → a.st.uartTxHead = m.st.uartTxHead))
      (fun a b hst hrx ha => by dsimp only at ha ⊢; rw [← hst, ← hrx]; exact ha)
      (fun a ha => by
        dsimp only at ha ⊢
        refine ⟨?_, (poll_frame env a).1.trans ha.2.1, fun hnr => ?_⟩
        · rw [poll_hw]; exact Nat.le_succ_of_le ha.1
        · exact (poll_no_reset env a (hnr _ ha.1)).1.trans (ha.2.2 hnr))
      (fun a ha _ _ => ha) fuel m m1 r h ⟨Nat.le_refl _, rfl, fun _ => rfl⟩
    exact ⟨key.2.1, key.2.2⟩
  · have hp := poll_reset env m b hrx hb
    unfold UART_StoreData
    rw [if_neg hinit]
    simp only [hp, if_true]
    exact ⟨trivial, trivial⟩

/-- Witness for C16: capacity 4 with three records queued and no inbound byte:
`UART_FlushOne` keeps head at 3 and `UART_StoreData` keeps tail at 0. -/
theorem index_ownership_witness :
    (UART_StoreData 4 quietEnv filledSys [4]).1.st.uartTxTail = 0
    ∧ (∀ m1 r, UART_FlushOne 4 quietEnv 1 filledSys = some (m1, r) → m1.st.uartTxHead = 3) :=
  have h := index_ownership 4 quietEnv 1 filledSys [4]
  ⟨(h.1 (fun b hb => by cases hb)).trans (by decide),
   fun m1 r hr => ((h.2.1 m1 r hr).2 (fun b hb => by cases hb)).trans (by decide)⟩

/-! ## The retry budget of the TXE wait -/

/-- Counterexample for C17: capacity 4, width 1, the record 0x11 queued with
timestamp 0x7A, no inbound byte, TXE clear at its first 5000 reads and set from
then on.  The wait for the first byte does not stop after 5000 reads that found
the flag clear: it makes a 5001st read, finds the flag set and the byte is sent;
`UART_FlushOne` returns 1 with both bytes of the packet sent, after 5002 reads
of TXE. -/
theorem txe_budget_counterexample :
    (∀ i, i < 5000 → slowEnv.txe i = false)
    ∧ waitTXE slowEnv.txe 5000 0 = (true, 5001)
    ∧ ∃ m1 : Sys, UART_FlushOne 4 slowEnv 1 oneSys = some (m1, 1)
        ∧ m1.hw.sent = [0x11, 0x7A]
        ∧ m1.hw.txePolls = 5002 := by
  have hclear : ∀ i, i < 5000 → slowEnv.txe i = false := by
    intro i hi
    show decide (5000 ≤ i) = false
    simp; omega
  have w0 : waitTXE slowEnv.txe 5000 0 = (true, 5001) :=
    waitTXE_at slowEnv.txe 5000 0 5000 (Nat.le_refl _)
      (fun i hi => by rw [Nat.zero_add]; exact hclear i hi) (by decide)
  have w1 : waitTXE slowEnv.txe 5000 5001 = (true, 5002) :=
    waitTXE_ready slowEnv.txe 5000 5001 (by decide)
  refine ⟨hclear, w0, ?_⟩
  have hguard : (BUFFER_IS_EMPTY oneSys.st || oneSys.st.selectedUART == none) = false := by
    decide
  have hg : (UART_ProcessCommand slowEnv oneSys).1.st.uartTransmitEnabled ≠ 0 := by decide
  have hbytes : packBytes (UART_ProcessCommand slowEnv oneSys).1.st.uartPayloadSize
      ((UART_ProcessCommand slowEnv oneSys).1.st.uartTxBuffer
        (UART_ProcessCommand slowEnv oneSys).1.st.uartTxTail) = [0x11, 0x7A] := by decide
  have htx : (UART_ProcessCommand slowEnv oneSys).1.hw.txePolls = 0 := by decide
  have hsent : (UART_ProcessCommand slowEnv oneSys).1.hw.sent = [] := by decide
  have htr : transmitBytes slowEnv [0x11, 0x7A] (UART_ProcessCommand slowEnv oneSys).1
      = ({ st := (UART_ProcessCommand slowEnv oneSys).1.st,
           hw := { (UART_ProcessCommand slowEnv oneSys).1.hw with
                     txePolls := 5002, sent := [0x11, 0x7A] } }, true) := by
    rw [transmitBytes_cons_ok slowEnv 0x11 [0x7A] _ 5001 (by rw [htx]; exact w0),
      transmitBytes_cons_ok slowEnv 0x7A [] _ 5002 w1, hsent]
    rfl
  unfold UART_FlushOne
  rw [hguard]
  simp only [Bool.false_eq_true, if_false, if_neg hg]
  rw [hbytes, htr]
  simp only [if_true, waitTC_ready slowEnv.tc 1 _ (by decide) rfl]
  exact ⟨_, rfl, rfl, rfl⟩

/-- C17 (amended): for each byte of a packet the transmit loop of
`UART_FlushOne` and `UART_FlushBuffer` reads the TXE flag at least once and at
most 5001 times (the first read and up to 5000 further ones: `timeout` starts at
5000 and the flag is read before `timeout-- <= 0` is tested).  The byte is
written as soon as one of these reads finds the flag set, and the loop goes on
with the next byte; when all 5001 reads find it clear the loop stops without
writing that byte, and the call returns 0: `UART_FlushOne` and the iteration of
`UART_FlushBuffer` in which the loop stops return 0 in the state the loop
left. -/
theorem txe_budget (N : Nat) (env : Env) (fuel : Nat) (m : Sys) (b : Nat) (rest : List Nat) :
    (m.hw.txePolls + 1 ≤ (waitTXE env.txe 5000 m.hw.txePolls).2
      ∧ (waitTXE env.txe 5000 m.hw.txePolls).2 ≤ m.hw.txePolls + 5001)
    ∧ (∀ n, n ≤ 5000 → (∀ i, i < n → env.txe (m.hw.txePolls + i) = false) →
        env.txe (m.hw.txePolls + n) = true →
          transmitBytes env (b :: rest) m
            = transmitBytes env rest
                { st := m.st,
                  hw := { m.hw with txePolls := m.hw.txePolls + n + 1,
                                    sent := m.hw.sent ++ [b] } })
    ∧ ((∀ i, i ≤ 5000 → env.txe (m.hw.txePolls + i) = false) →
        transmitBytes env (b :: rest) m
          = ({ st := m.st, hw := { m.hw with txePolls := m.hw.txePolls + 5001 } }, false))
    ∧ (m.st.uartTxHead ≠ m.st.uartTxTail →
        (UART_ProcessCommand env m).1.st.uartTransmitEnabled ≠ 0 →
        (transmitBytes env
            (packBytes (UART_ProcessCommand env m).1.st.uartPayloadSize
              ((UART_ProcessCommand env m).1.st.uartTxBuffer
                (UART_ProcessCommand env m).1.st.uartTxTail))
            (UART_ProcessCommand env m).1).2 = false →
          flushLoop N env (fuel + 1) m
            = some ((transmitBytes env
                (packBytes (UART_ProcessCommand env m).1.st.uartPayloadSize
                  ((UART_ProcessCommand env m).1.st.uartTxBuffer
                    (UART_ProcessCommand env m).1.st.uartTxTail))
                (UART_ProcessCommand env m).1).1, false)
          ∧ (m.st.selectedUART ≠ none →
              UART_FlushOne N env fuel m
                = some ((transmitBytes env
                    (packBytes (UART_ProcessCommand env m).1.st.uartPayloadSize
                      ((UART_ProcessCommand env m).1.st.uartTxBuffer
                        (UART_ProcessCommand env m).1.st.uartTxTail))
                    (UART_ProcessCommand env m).1).1, 0)
              ∧ UART_FlushBuffer N env (fuel + 1) m
                = some ((transmitBytes env
                    (packBytes (UART_ProcessCommand env m).1.st.uartPayloadSize
                      ((UART_ProcessCommand env m).1.st.uartTxBuffer
                        (UART_ProcessCommand env m).1.st.uartTxTail))
                    (UART_ProcessCommand env m).1).1, 0))) := by
  refine ⟨?_, fun n hn hclear hset => ?_, fun hclear => ?_, fun hne hg hfail => ?_⟩
  · have h := waitTXE_reads env.txe 5000 m.hw.txePolls
    exact ⟨h.1, h.2⟩
  · exact transmitBytes_cons_ok env b rest m _
      (waitTXE_at env.txe 5000 m.hw.txePolls n hn hclear hset)
  · exact transmitBytes_cons_out env b rest m _
      (waitTXE_never env.txe 5000 m.hw.txePolls hclear)
  · have hloop : flushLoop N env (fuel + 1) m
        = some ((transmitBytes env
            (packBytes (UART_ProcessCommand env m).1.st.uartPayloadSize
              ((UART_ProcessCommand env m).1.st.uartTxBuffer
                (UART_ProcessCommand env m).1.st.uartTxTail))
            (UART_ProcessCommand env m).1).1, false) := by
      unfold flushLoop
      simp only [BUFFER_IS_EMPTY, beq_iff_eq, hne, if_false, if_neg hg, hfail,
        Bool.false_eq_true]
    refine ⟨hloop, fun hinit => ⟨?_, ?_⟩⟩
    · unfold UART_FlushOne
      simp only [flush_guard_false m hinit hne, Bool.false_eq_true, if_false, if_neg hg, hfail]
    · unfold UART_FlushBuffer
      simp only [flush_guard_false m hinit hne, Bool.false_eq_true, if_false, hloop]

/-- Witness for C17 (amended): capacity 4, width 1, the record 0x11 queued.  With
TXE clear at its first 5000 reads and set at the next, the wait for the first
byte makes 5001 reads and the byte is written; with TXE clear at the 5001 reads
from read 1 on, the loop stops at the byte 0x7A without writing it. -/
theorem txe_budget_witness :
    (waitTXE slowEnv.txe 5000 oneSys.hw.txePolls).2 ≤ oneSys.hw.txePolls + 5001
    ∧ transmitBytes slowEnv (0x11 :: [0x7A]) oneSys
        = transmitBytes slowEnv [0x7A]
            { st := oneSys.st,
              hw := { oneSys.hw with txePolls := oneSys.hw.txePolls + 5000 + 1,
                                     sent := oneSys.hw.sent ++ [0x11] } }
    ∧ transmitBytes stallEnv (0x7A :: [])
          { st := oneSys.st, hw := { oneSys.hw with txePolls := 1, sent := [0x11] } }
        = ({ st := oneSys.st,
             hw := { oneSys.hw with txePolls := 1 + 5001, sent := [0x11] } }, false) :=
  ⟨(txe_budget 4 slowEnv 1 oneSys 0x11 [0x7A]).1.2,
   (txe_budget 4 slowEnv 1 oneSys 0x11 [0x7A]).2.1 5000 (Nat.le_refl _)
     (fun i hi => by
       show decide (5000 ≤ oneSys.hw.txePolls + i) = false
       have h0 : oneSys.hw.txePolls = 0 := by decide
       rw [h0]; simp; omega)
     (by decide),
   (txe_budget 4 stallEnv 1
      { st := oneSys.st, hw := { oneSys.hw with txePolls := 1, sent := [0x11] } }
      0x7A []).2.2.1
     (fun i _ => by
       show (1 + i == 0) = false
       simp)⟩

/-! ## Slots written by a store -/

/-- C18 (the code at the failing input): capacity 4, width 1, the started empty
buffer with head 0 and slot 1 zeroed, `Store([1, 2])` with timestamp 0x7A.  The
call returns 1 and slot 1, whose index differs from the head on entry, holds the
record of the second value afterwards. -/
theorem store_writes_past_old_head :
    (startedSys .UART_PAYLOAD_8).st.uartTxHead = 0
    ∧ (startedSys .UART_PAYLOAD_8).st.uartTxBuffer 1 = { data := 0, timestamp := 0 }
    ∧ (UART_StoreData 4 quietEnv (startedSys .UART_PAYLOAD_8) [1, 2]).2 = 1
    ∧ (UART_StoreData 4 quietEnv (startedSys .UART_PAYLOAD_8) [1, 2]).1.st.uartTxBuffer 1
        = { data := 2, timestamp := 0x7A }
    ∧ (UART_StoreData 4 quietEnv (startedSys .UART_PAYLOAD_8) [1, 2]).1.st.uartTxBuffer 1
        ≠ (startedSys .UART_PAYLOAD_8).st.uartTxBuffer 1 := by
  decide

/-! ## Reachable states -/

/-- C19: from a state with both indices in range (in particular the state at
program start, head = tail = 0, for `N > 0`), after every sequence of
`UART_Init`, `UART_StoreData`, `UART_FlushOne` and `UART_FlushBuffer` calls that
returns, whatever the inbound bytes and the transport flags, `head < N` and
`tail < N`.  In such a state every write of a later store is at a head below `N`
and every read of a later flush is at a tail below `N`. -/
theorem indices_in_range (N : Nat) (env : Env) (fuel : Nat) (calls : List ApiCall)
    (m0 m : Sys) (h0h : m0.st.uartTxHead < N) (h0t : m0.st.uartTxTail < N)
    (hrun : runApi N env fuel calls m0 = some m) :
    m.st.uartTxHead < N
    ∧ m.st.uartTxTail < N
    ∧ (∀ (env2 : Env) (pre : List Nat),
        (storeLoop N env2 pre (UART_ProcessCommand env2 m).1).st.uartTxHead < N)
    ∧ (∀ (env2 : Env) (s : Sys), s ∈ flushOneReads env2 m → s.st.uartTxTail < N)
    ∧ (∀ (env2 : Env) (fuel2 : Nat) (s : Sys),
        s ∈ flushBufferReads N env2 fuel2 m → s.st.uartTxTail < N) := by
  have hN : 0 < N := by omega
  have hinv : m.st.uartTxHead < N ∧ m.st.uartTxTail < N :=
    runApi_invariant N env fuel (fun s => s.uartTxHead < N ∧ s.uartTxTail < N)
      (fun c a a1 hc hP =>
        apiCall_invariant N env fuel (fun s => s.uartTxHead < N ∧ s.uartTxTail < N)
          (fun _ _ _ _ _ => ⟨hN, hN⟩)
          (fun a ha => poll_range N env a ha.1 ha.2)
          (fun vals a ha _ =>
            ⟨storeLoop_head_lt N env vals a ha.1,
             by rw [(storeLoop_frame N env vals a).1]; exact ha.2⟩)
          (fun s hs _ _ =>
            ⟨hs.1, Nat.lt_of_le_of_lt (Nat.mod_le _ _) (Nat.mod_lt _ hN)⟩)
          c a a1 hc hP)
      calls m0 m hrun ⟨h0h, h0t⟩
  refine ⟨hinv.1, hinv.2, fun env2 pre => ?_, fun env2 s hs => ?_, fun env2 fuel2 s hs => ?_⟩
  · exact storeLoop_head_lt N env2 pre _ (poll_range N env2 m hinv.1 hinv.2).1
  · unfold flushOneReads at hs
    simp only [] at hs
    split_ifs at hs
    · simp at hs
    · simp at hs
    · rw [List.mem_singleton.1 hs]
      exact (poll_range N env2 m hinv.1 hinv.2).2
  · unfold flushBufferReads at hs
    split_ifs at hs
    · simp at hs
    · exact flushLoopReads_range N env2 fuel2 m s hinv.1 hinv.2 hs

/-- Witness for C19: capacity 4, from program start with the start byte waiting:
`UART_Init`, `Store([1,2,3])`, `FlushOne`, `Store([4])`, `FlushBuffer`. -/
theorem indices_in_range_witness :
    ∃ m : Sys,
      runApi 4 startEnv 5
          [.init 1 1 .UART_PAYLOAD_8, .data (.store [1, 2, 3]), .data .flushOne,
           .data (.store [4]), .data .flushBuffer] bootSys = some m
      ∧ m.st.uartTxHead < 4 ∧ m.st.uartTxTail < 4 := by
  cases h : runApi 4 startEnv 5
      [.init 1 1 .UART_PAYLOAD_8, .data (.store [1, 2, 3]), .data .flushOne,
       .data (.store [4]), .data .flushBuffer] bootSys with
  | none => exact absurd (congrArg Option.isSome h) (by decide)
  | some m =>
    have hr := indices_in_range 4 startEnv 5 _ bootSys m (by decide) (by decide) h
    exact ⟨m, rfl, hr.1, hr.2.1⟩

/-- C20: from a state in which a disabled gate goes with an empty buffer (in
particular the state at program start: gate off, head = tail = 0), after every
sequence of `UART_Init`, `UART_StoreData`, `UART_FlushOne` and
`UART_FlushBuffer` calls that returns, whatever the inbound bytes, if the gate is
disabled then head = tail.  A store returns 1 only with the gate enabled, and a
poll that turns an enabled gate off sets head = tail = 0. -/
theorem gate_off_buffer_empty (N : Nat) (env : Env) (fuel : Nat) (calls : List ApiCall)
    (m0 m : Sys)
    (h0 : m0.st.uartTransmitEnabled = 0 → m0.st.uartTxHead = m0.st.uartTxTail)
    (hrun : runApi N env fuel calls m0 = some m) :
    (m.st.uartTransmitEnabled = 0 → m.st.uartTxHead = m.st.uartTxTail)
    ∧ (∀ (env2 : Env) (dataArray : List Nat), (UART_StoreData N env2 m dataArray).2 = 1 →
        (UART_StoreData N env2 m dataArray).1.st.uartTransmitEnabled ≠ 0)
    ∧ (∀ env2 : Env, m.st.uartTransmitEnabled ≠ 0 →
        (UART_ProcessCommand env2 m).1.st.uartTransmitEnabled = 0 →
          (UART_ProcessCommand env2 m).1.st.uartTxHead = 0
          ∧ (UART_ProcessCommand env2 m).1.st.uartTxTail = 0) := by
  refine ⟨?_, fun env2 dataArray hok => ?_, fun env2 hon hoff => ?_⟩
  · exact runApi_invariant N env fuel
      (fun s => s.uartTransmitEnabled = 0 → s.uartTxHead = s.uartTxTail)
      (fun c a a1 hc hP =>
        apiCall_invariant N env fuel
          (fun s => s.uartTransmitEnabled = 0 → s.uartTxHead = s.uartTxTail)
          (fun _ _ _ _ _ _ => rfl)
          (fun a ha => poll_gate_empty env a ha)
          (fun vals a _ hg hz => by
            rw [(storeLoop_frame N env vals a).2.1] at hz
            exact absurd hz hg)
          (fun s _ hg _ hz => absurd hz hg)
          c a a1 hc hP)
      calls m0 m hrun h0
  · obtain ⟨-, hgate, -, hS⟩ := (store_returns_one N env2 m dataArray).1 hok
    rw [hS]
    simp only []
    rw [(storeLoop_frame N env2 dataArray _).2.1]
    exact hgate
  · unfold UART_ProcessCommand at hoff ⊢
    cases hrx : env2.rxne m.hw.rxPolls with
    | none => simp only [hrx] at hoff; exact absurd hoff hon
    | some b =>
      simp only [hrx] at hoff ⊢
      split_ifs at hoff ⊢
      · exact ⟨rfl, rfl⟩
      · exact absurd hoff hon

/-- Witness for C20: capacity 4, from program start, the start byte at the first
poll and the reset byte afterwards: `UART_Init`, `Store([1,2])` (gate on, two
records), `FlushOne` (reset received): the gate is off and head = tail. -/
theorem gate_off_buffer_empty_witness :
    ∃ m : Sys,
      runApi 4 startThenResetEnv 5
          [.init 1 1 .UART_PAYLOAD_8, .data (.store [1, 2]), .data .flushOne] bootSys = some m
      ∧ m.st.uartTransmitEnabled = 0
      ∧ m.st.uartTxHead = m.st.uartTxTail := by
  cases h : runApi 4 startThenResetEnv 5
      [.init 1 1 .UART_PAYLOAD_8, .data (.store [1, 2]), .data .flushOne] bootSys with
  | none => exact absurd (congrArg Option.isSome h) (by decide)
  | some m =>
    have hg : m.st.uartTransmitEnabled = 0 := by
      have h2 := congrArg (fun o => Option.map (fun x : Sys => x.st.uartTransmitEnabled) o) h
      have h3 : Option.map (fun x : Sys => x.st.uartTransmitEnabled)
          (runApi 4 startThenResetEnv 5
            [.init 1 1 .UART_PAYLOAD_8, .data (.store [1, 2]), .data .flushOne] bootSys)
          = some 0 := by decide
      simp only [Option.map_some'] at h2
      rw [h3] at h2
      exact (Option.some.inj h2).symm
    exact ⟨m, rfl, hg,
      (gate_off_buffer_empty 4 startThenResetEnv 5 _ bootSys m (fun _ => rfl) h).1 hg⟩

/-! ## Initialisation and the gate -/

/-- C21: in every state `UART_Init` sets head = tail = 0, records the UART, the
timestamp holder and the payload size, and leaves the gate, the slots and the
transport untouched.  So when it is called with the gate enabled the gate is
still enabled afterwards, and a following store of at most `N - 1` values whose
poll receives no reset returns 1, no start byte being needed. -/
theorem init_keeps_gate (N : Nat) (env : Env) (USARTx timestampHolder : Nat)
    (payloadSize : UART_PayloadSize) (m : Sys) (dataArray : List Nat) :
    (UART_Init USARTx timestampHolder payloadSize m).st.uartTxHead = 0
    ∧ (UART_Init USARTx timestampHolder payloadSize m).st.uartTxTail = 0
    ∧ (UART_Init USARTx timestampHolder payloadSize m).st.selectedUART = some USARTx
    ∧ (UART_Init USARTx timestampHolder payloadSize m).st.timeValue = some timestampHolder
    ∧ (UART_Init USARTx timestampHolder payloadSize m).st.uartPayloadSize = payloadSize
    ∧ (UART_Init USARTx timestampHolder payloadSize m).st.uartTransmitEnabled
        = m.st.uartTransmitEnabled
    ∧ (UART_Init USARTx timestampHolder payloadSize m).st.uartTxBuffer = m.st.uartTxBuffer
    ∧ (UART_Init USARTx timestampHolder payloadSize m).hw = m.hw
    ∧ (m.st.uartTransmitEnabled ≠ 0 → N ≤ 65536 → dataArray.length ≤ N - 1 →
        noResetAt env m.hw.rxPolls →
          (UART_StoreData N env (UART_Init USARTx timestampHolder payloadSize m) dataArray).2 = 1
          ∧ (UART_StoreData N env (UART_Init USARTx timestampHolder payloadSize m)
              dataArray).1.st.uartTransmitEnabled ≠ 0) := by
  refine ⟨rfl, rfl, rfl, rfl, rfl, rfl, rfl, rfl, fun hgate hN16 hlen hnr => ?_⟩
  obtain ⟨e1, e2, e3⟩ := poll_no_reset env (UART_Init USARTx timestampHolder payloadSize m) hnr
  have hg := e3 hgate
  have hfree : dataArray.length ≤ freeSlots N 0 0 := by
    unfold freeSlots
    simp only [ge_iff_le, Nat.le_refl, if_true]
    omega
  have hroom : ¬ freeSlots N
      (UART_ProcessCommand env (UART_Init USARTx timestampHolder payloadSize m)).1.st.uartTxHead
      (UART_ProcessCommand env (UART_Init USARTx timestampHolder payloadSize m)).1.st.uartTxTail
      < dataArray.length := by
    rw [e1, e2]
    exact Nat.not_lt.2 hfree
  have hsel : ¬ (UART_Init USARTx timestampHolder payloadSize m).st.selectedUART = none := by
    intro h; cases h
  have hS : UART_StoreData N env (UART_Init USARTx timestampHolder payloadSize m) dataArray
      = (storeLoop N env dataArray
          (UART_ProcessCommand env (UART_Init USARTx timestampHolder payloadSize m)).1, 1) := by
    unfold UART_StoreData
    rw [if_neg hsel]
    simp only []
    rw [if_neg hg, if_neg hroom]
  rw [hS]
  refine ⟨rfl, ?_⟩
  simp only []
  rw [(storeLoop_frame N env dataArray _).2.1]
  exact hg

/-- Witness for C21: capacity 4, gate enabled and three records queued;
`UART_Init` with another width keeps the gate at 1 and empties the buffer, and
`Store([5])` then returns 1 with no inbound byte. -/
theorem init_keeps_gate_witness :
    filledSys.st.uartTransmitEnabled = 1
    ∧ (UART_Init 2 2 .UART_PAYLOAD_16 filledSys).st.uartTransmitEnabled = 1
    ∧ (UART_Init 2 2 .UART_PAYLOAD_16 filledSys).st.uartTxHead = 0
    ∧ (UART_Init 2 2 .UART_PAYLOAD_16 filledSys).st.uartTxTail = 0
    ∧ (UART_StoreData 4 quietEnv (UART_Init 2 2 .UART_PAYLOAD_16 filledSys) [5]).2 = 1 :=
  have h := init_keeps_gate 4 quietEnv 2 2 .UART_PAYLOAD_16 filledSys [5]
  ⟨by decide, h.2.2.2.2.2.1.trans (by decide), h.1, h.2.1,
   (h.2.2.2.2.2.2.2.2 (by decide) (by decide) (by decide) (fun b hb => by cases hb)).1⟩

end Uart
